import Mathlib

/-!
The A2DP LDAC codec adapter (`spa/plugins/bluez5/a2dp-codec-ldac.c`)

A shallow embedding of the capability negotiation (`codec_fill_caps`,
`codec_select_config`), of the packet-capacity query (`codec_get_num_blocks`), of
session construction and release (`codec_init`, `codec_deinit`), of the bit-pool hooks
and of packet framing (`codec_start_encode`, `codec_encode`), followed by the
properties established about them.

Conventions of the embedding:

* a byte buffer is a `List Nat` of byte values; `memcpy dst src n` replaces the
  first `n` bytes of `dst`;
* `size_t` is 64 bits wide and `int` is 32 bits wide (LP64), arithmetic on
  `size_t` wraps modulo `2 ^ 64`, a conversion to `int` wraps into
  `[-2 ^ 31, 2 ^ 31)`;
* a C function that writes through an output pointer returns the new contents
  of that object next to its return value;
* the encoding engine is not part of the source: a function that calls it takes the
  engine's answer as an argument and returns the calls it made, in order;
* the memory holding a packet is a `List Nat` indexed by address, and a pointer is an
  address, 0 for `NULL`.
-/

namespace A2dpLdac

/-! ## What the headers outside the source tree fix -/

/-- The constants of `ldacBT.h` and `a2dp-codecs.h` that the adapter names, and the
byte order in which the host lays out the multi-byte fields of `a2dp_ldac_t`.
Neither header is part of the source tree, so their values are parameters of the
embedding. -/
structure Headers where
  LDAC_VENDOR_ID : Nat
  LDAC_CODEC_ID : Nat
  LDACBT_SAMPLING_FREQ_044100 : Nat
  LDACBT_SAMPLING_FREQ_048000 : Nat
  LDACBT_SAMPLING_FREQ_088200 : Nat
  LDACBT_SAMPLING_FREQ_096000 : Nat
  LDACBT_SAMPLING_FREQ_176400 : Nat
  LDACBT_SAMPLING_FREQ_192000 : Nat
  LDACBT_CHANNEL_MODE_MONO : Nat
  LDACBT_CHANNEL_MODE_DUAL_CHANNEL : Nat
  LDACBT_CHANNEL_MODE_STEREO : Nat
  big_endian : Bool
deriving DecidableEq, Repr

/-- The six sample-rate constants, in the order in which `codec_select_config`
tests them (ascending frequency). -/
def Headers.rates (K : Headers) : List Nat :=
  [K.LDACBT_SAMPLING_FREQ_044100, K.LDACBT_SAMPLING_FREQ_048000,
   K.LDACBT_SAMPLING_FREQ_088200, K.LDACBT_SAMPLING_FREQ_096000,
   K.LDACBT_SAMPLING_FREQ_176400, K.LDACBT_SAMPLING_FREQ_192000]

/-- The five rate constants below 192000 Hz, the ones tested by an `if` without
`else`. -/
def Headers.lower_rates (K : Headers) : List Nat :=
  [K.LDACBT_SAMPLING_FREQ_044100, K.LDACBT_SAMPLING_FREQ_048000,
   K.LDACBT_SAMPLING_FREQ_088200, K.LDACBT_SAMPLING_FREQ_096000,
   K.LDACBT_SAMPLING_FREQ_176400]

/-- The three channel-mode constants, in the order in which
`codec_select_config` tests them (stereo, dual channel, mono). -/
def Headers.modes (K : Headers) : List Nat :=
  [K.LDACBT_CHANNEL_MODE_STEREO, K.LDACBT_CHANNEL_MODE_DUAL_CHANNEL,
   K.LDACBT_CHANNEL_MODE_MONO]

/-- A value that is one bit of a `uint8_t`. -/
def single_bit (c : Nat) : Prop := c ∈ [1, 2, 4, 8, 16, 32, 64, 128]

instance (c : Nat) : Decidable (single_bit c) := by
  unfold single_bit; infer_instance

/-- The headers are well formed: the six rate constants are distinct single bits of
the one-byte rate mask, the three mode constants are distinct single bits of the
one-byte mode mask, and the identifiers fit their 32-bit and 16-bit fields. -/
def Headers.Valid (K : Headers) : Prop :=
  (∀ c ∈ K.rates, single_bit c) ∧ K.rates.Nodup ∧
  (∀ c ∈ K.modes, single_bit c) ∧ K.modes.Nodup ∧
  K.LDAC_VENDOR_ID < 2 ^ 32 ∧ K.LDAC_CODEC_ID < 2 ^ 16

instance (K : Headers) : Decidable K.Valid := by
  unfold Headers.Valid; infer_instance

/-- Modelled from the spec: the values of the constants are not in the source tree.
The spec (section 6) lists the sample-rate bits "in ascending order" for 44100 up to
192000 Hz and the channel-mode bits for mono, dual channel, stereo; the vendor and
codec identifiers are the registered LDAC ones. This instance is used to evaluate the
embedding on concrete inputs; the general theorems hold for every valid `Headers`. -/
def spec_headers : Headers where
  LDAC_VENDOR_ID := 0x0000012d
  LDAC_CODEC_ID := 0x00aa
  LDACBT_SAMPLING_FREQ_044100 := 0x01
  LDACBT_SAMPLING_FREQ_048000 := 0x02
  LDACBT_SAMPLING_FREQ_088200 := 0x04
  LDACBT_SAMPLING_FREQ_096000 := 0x08
  LDACBT_SAMPLING_FREQ_176400 := 0x10
  LDACBT_SAMPLING_FREQ_192000 := 0x20
  LDACBT_CHANNEL_MODE_MONO := 0x01
  LDACBT_CHANNEL_MODE_DUAL_CHANNEL := 0x02
  LDACBT_CHANNEL_MODE_STEREO := 0x04
  big_endian := false

/-- The value of `EINVAL` in `errno.h` (Linux). -/
def EINVAL : Int := 22

/-- The value of `ENOTSUP` in `errno.h` (Linux). -/
def ENOTSUP : Int := 95

/-! ## The capability structure and its bytes -/

/-- Modelled from the spec: `a2dp_vendor_codec_t` is declared in `a2dp-codecs.h`,
which is not in the source tree; the spec's data model gives a 32-bit vendor id
followed by a 16-bit codec id. -/
structure a2dp_vendor_codec_t where
  vendor_id : Nat
  codec_id : Nat
deriving DecidableEq, Repr

/-- Modelled from the spec: `a2dp_ldac_t` is declared in `a2dp-codecs.h`, which is
not in the source tree; the spec's data model gives the vendor/codec identifiers
followed by a one-byte sample-rate mask and a one-byte channel-mode mask, packed. -/
structure a2dp_ldac_t where
  info : a2dp_vendor_codec_t
  frequency : Nat
  channel_mode : Nat
deriving DecidableEq, Repr

/-- The value `sizeof(a2dp_ldac_t)`: 4 + 2 + 1 + 1 bytes. -/
def sizeof_a2dp_ldac_t : Nat := 8

/-- Truncation of a value to `uint8_t`. -/
def u8 (x : Nat) : Nat := x % 256

/-- The bytes of an `n`-byte unsigned field holding `x`, least significant first. -/
def le_bytes : Nat → Nat → List Nat
  | 0, _ => []
  | n + 1, x => x % 256 :: le_bytes n (x / 256)

/-- The value of an unsigned field from its bytes, least significant first. -/
def le_value : List Nat → Nat
  | [] => 0
  | b :: bs => b % 256 + 256 * le_value bs

/-- The bytes of an `n`-byte unsigned field in the host's byte order. -/
def field_bytes (K : Headers) (n x : Nat) : List Nat :=
  if K.big_endian then (le_bytes n x).reverse else le_bytes n x

/-- The value of an unsigned field from its bytes in the host's byte order. -/
def field_value (K : Headers) (bs : List Nat) : Nat :=
  if K.big_endian then le_value bs.reverse else le_value bs

/-- The object representation of an `a2dp_ldac_t` (8 bytes). -/
def a2dp_ldac_t.bytes (K : Headers) (c : a2dp_ldac_t) : List Nat :=
  field_bytes K 4 c.info.vendor_id ++ field_bytes K 2 c.info.codec_id ++
    [u8 c.frequency, u8 c.channel_mode]

/-- The `a2dp_ldac_t` whose object representation is the first 8 bytes of a buffer
(a byte the buffer does not have reads as 0). -/
def a2dp_ldac_t.of_bytes (K : Headers) (b : List Nat) : a2dp_ldac_t where
  info :=
    { vendor_id := field_value K [b.getD 0 0, b.getD 1 0, b.getD 2 0, b.getD 3 0]
      codec_id := field_value K [b.getD 4 0, b.getD 5 0] }
  frequency := u8 (b.getD 6 0)
  channel_mode := u8 (b.getD 7 0)

/-- The buffer `dst` after `memcpy(dst, src, n)`. -/
def memcpy (dst src : List Nat) (n : Nat) : List Nat :=
  src.take n ++ dst.drop n

/-! ## Capability advertisement and negotiation -/

/-- Function `codec_fill_caps` (lines 56-73): the returned size and the `caps` buffer after
the call. -/
def codec_fill_caps (K : Headers) (_flags : Nat) (caps : List Nat) : Int × List Nat :=
  let a2dp_ldac : a2dp_ldac_t :=
    { info := { vendor_id := K.LDAC_VENDOR_ID, codec_id := K.LDAC_CODEC_ID }
      frequency := K.LDACBT_SAMPLING_FREQ_044100 |||
        K.LDACBT_SAMPLING_FREQ_048000 |||
        K.LDACBT_SAMPLING_FREQ_088200 |||
        K.LDACBT_SAMPLING_FREQ_096000 |||
        K.LDACBT_SAMPLING_FREQ_176400 |||
        K.LDACBT_SAMPLING_FREQ_192000
      channel_mode := K.LDACBT_CHANNEL_MODE_MONO |||
        K.LDACBT_CHANNEL_MODE_DUAL_CHANNEL |||
        K.LDACBT_CHANNEL_MODE_STEREO }
  (sizeof_a2dp_ldac_t, memcpy caps (a2dp_ldac.bytes K) sizeof_a2dp_ldac_t)

/-- One unconditional step of the sample-rate scan (lines 87-96):
`if (conf.frequency & c) conf.frequency = c;`. -/
def rate_step (c : Nat) (conf : a2dp_ldac_t) : a2dp_ldac_t :=
  if conf.frequency &&& c ≠ 0 then { conf with frequency := u8 c } else conf

/-- The sample-rate part of `codec_select_config` (lines 87-100): five `if`
statements without `else`, each testing the field the previous one may have
overwritten, then the `if`/`else return -ENOTSUP` on the 192000 Hz bit. `none` is
the `return -ENOTSUP`. -/
def select_frequency (K : Headers) (conf : a2dp_ldac_t) : Option a2dp_ldac_t :=
  let conf := rate_step K.LDACBT_SAMPLING_FREQ_044100 conf
  let conf := rate_step K.LDACBT_SAMPLING_FREQ_048000 conf
  let conf := rate_step K.LDACBT_SAMPLING_FREQ_088200 conf
  let conf := rate_step K.LDACBT_SAMPLING_FREQ_096000 conf
  let conf := rate_step K.LDACBT_SAMPLING_FREQ_176400 conf
  if conf.frequency &&& K.LDACBT_SAMPLING_FREQ_192000 ≠ 0 then
    some { conf with frequency := u8 K.LDACBT_SAMPLING_FREQ_192000 }
  else
    none

/-- The channel-mode part of `codec_select_config` (lines 102-109): an
`if`/`else if` ladder stereo, dual channel, mono, else `return -ENOTSUP` (`none`). -/
def select_channel_mode (K : Headers) (conf : a2dp_ldac_t) : Option a2dp_ldac_t :=
  if conf.channel_mode &&& K.LDACBT_CHANNEL_MODE_STEREO ≠ 0 then
    some { conf with channel_mode := u8 K.LDACBT_CHANNEL_MODE_STEREO }
  else if conf.channel_mode &&& K.LDACBT_CHANNEL_MODE_DUAL_CHANNEL ≠ 0 then
    some { conf with channel_mode := u8 K.LDACBT_CHANNEL_MODE_DUAL_CHANNEL }
  else if conf.channel_mode &&& K.LDACBT_CHANNEL_MODE_MONO ≠ 0 then
    some { conf with channel_mode := u8 K.LDACBT_CHANNEL_MODE_MONO }
  else
    none

/-- Function `codec_select_config` (lines 75-114): the return value and the `config` buffer
after the call. `caps` is the buffer behind the `caps` pointer and `caps_size` the
length passed with it; the `info` argument is not read by the function and is left
out. -/
def codec_select_config (K : Headers) (_flags : Nat) (caps : List Nat) (caps_size : Nat)
    (config : List Nat) : Int × List Nat :=
  if caps_size < sizeof_a2dp_ldac_t then
    (-EINVAL, config)
  else
    let conf := a2dp_ldac_t.of_bytes K caps
    let conf := { conf with
      info := { vendor_id := K.LDAC_VENDOR_ID, codec_id := K.LDAC_CODEC_ID } }
    match select_frequency K conf with
    | none => (-ENOTSUP, config)
    | some conf =>
      match select_channel_mode K conf with
      | none => (-ENOTSUP, config)
      | some conf => (sizeof_a2dp_ldac_t, memcpy config (conf.bytes K) sizeof_a2dp_ldac_t)

/-! ## The encoder session and the packet-capacity query -/

/-- The number of bits of `size_t` (LP64). -/
def SIZE_BITS : Nat := 64

/-- The number of bits of `int`. -/
def INT_BITS : Nat := 32

/-- Conversion of an `int` to `size_t`: reduction modulo `2 ^ 64`. -/
def size_of_int (i : Int) : Nat := (i % (2 ^ SIZE_BITS : Int)).toNat

/-- Conversion of a `size_t` to `int`: the value modulo `2 ^ 32`, read as a two's
complement number. -/
def int_of_size (n : Nat) : Int :=
  if n % 2 ^ INT_BITS < 2 ^ (INT_BITS - 1) then ((n % 2 ^ INT_BITS : Nat) : Int)
  else ((n % 2 ^ INT_BITS : Nat) : Int) - (2 ^ INT_BITS : Int)

/-- Subtraction of two `size_t` values: it wraps modulo `2 ^ 64`. -/
def size_sub (a b : Nat) : Nat := (a + 2 ^ SIZE_BITS - b % 2 ^ SIZE_BITS) % 2 ^ SIZE_BITS

/-- Modelled from the spec: `sizeof(struct rtp_header)`; `rtp.h` is not in the
source tree, the fixed RTP header is 12 bytes. -/
def sizeof_rtp_header : Nat := 12

/-- Modelled from the spec: `sizeof(struct rtp_payload)`; `rtp.h` is not in the
source tree, the payload preamble is 1 byte. -/
def sizeof_rtp_payload : Nat := 1

/-- The session, `struct impl` (lines 40-54). The engine handle and the two pointers
into the packet buffer are addresses, 0 for `NULL`; the other fields are `int`. -/
structure impl where
  ldac : Nat
  header : Nat
  payload : Nat
  mtu : Int
  eqmid : Int
  channel_mode : Int
  frequency : Int
  fmt : Int
  lsu : Int
  codesize : Int
  frame_length : Int
deriving DecidableEq, Repr

/-- Function `codec_get_num_blocks` (lines 128-140): the return value and the session
after the call; `none` when the division has a zero divisor. `mtu` is a `size_t`,
the `int` field `frame_length` is converted to `size_t` for the division, and the
assignment to the `int` field `mtu` and the `return` convert back to `int`. -/
def codec_get_num_blocks (this : impl) (mtu : Nat) : Option (Int × impl) :=
  let rtp_size := sizeof_rtp_header + sizeof_rtp_payload
  if size_of_int this.frame_length = 0 then
    none
  else
    let frame_count := size_sub mtu rtp_size / size_of_int this.frame_length
    let this := { this with mtu := int_of_size mtu }
    let frame_count := if frame_count > 15 then 15 else frame_count
    some (int_of_size frame_count, this)

/-- Function `codec_get_block_size` (lines 142-146). -/
def codec_get_block_size (this : impl) : Int := this.codesize

/-- A session with a non-null engine handle whose frame length is the 220 bytes of
the standard quality tier and whose other fields are zero, used to evaluate the
embedding. -/
def sq_session : impl where
  ldac := 1
  header := 0
  payload := 0
  mtu := 0
  eqmid := 0
  channel_mode := 0
  frequency := 0
  fmt := 0
  lsu := 0
  codesize := 0
  frame_length := 220

/-! ## The encoding engine and session construction -/

/-- The constants of `ldacBT.h` and of the SPA audio headers that `codec_init` and the
bit-pool hooks name. The headers are not part of the source tree, so the values are
parameters of the embedding. -/
structure EngineConsts where
  LDACBT_EQMID_HQ : Int
  LDACBT_EQMID_SQ : Int
  LDACBT_EQMID_MQ : Int
  LDACBT_SMPL_FMT_S16 : Int
  LDACBT_EQMID_INC_QUALITY : Int
  LDACBT_EQMID_INC_CONNECTION : Int
  SPA_MEDIA_TYPE_audio : Nat
  SPA_MEDIA_SUBTYPE_raw : Nat
  SPA_AUDIO_FORMAT_S16 : Nat
deriving DecidableEq, Repr

/-- The engine constants are well formed: the three quality tiers are distinct values
(they label the cases of one `switch`) and the two priority directions are
distinct. -/
def EngineConsts.Valid (C : EngineConsts) : Prop :=
  C.LDACBT_EQMID_HQ ≠ C.LDACBT_EQMID_SQ ∧ C.LDACBT_EQMID_HQ ≠ C.LDACBT_EQMID_MQ ∧
  C.LDACBT_EQMID_SQ ≠ C.LDACBT_EQMID_MQ ∧
  C.LDACBT_EQMID_INC_QUALITY ≠ C.LDACBT_EQMID_INC_CONNECTION

instance (C : EngineConsts) : Decidable C.Valid := by
  unfold EngineConsts.Valid; infer_instance

/-- Modelled from the spec: the values of the engine constants are not in the source
tree. The quality tiers are ordered high, standard, low; one step toward quality is
`+1` and one step toward connection priority is `-1`. This instance is used to
evaluate the embedding on concrete inputs; the general theorems hold for every valid
`EngineConsts`. -/
def spec_engine : EngineConsts where
  LDACBT_EQMID_HQ := 0
  LDACBT_EQMID_SQ := 1
  LDACBT_EQMID_MQ := 2
  LDACBT_SMPL_FMT_S16 := 2
  LDACBT_EQMID_INC_QUALITY := 1
  LDACBT_EQMID_INC_CONNECTION := -1
  SPA_MEDIA_TYPE_audio := 1
  SPA_MEDIA_SUBTYPE_raw := 1
  SPA_AUDIO_FORMAT_S16 := 259

/-- Modelled from the spec: `struct spa_audio_info` is declared in
`spa/param/audio/format.h`, which is not in the source tree. The members are the media
type and subtype and the raw audio description `info.raw` (sample format, flags,
rate in Hz, channel count, channel positions). -/
structure spa_audio_info where
  media_type : Nat
  media_subtype : Nat
  format : Nat
  flags : Nat
  rate : Nat
  channels : Nat
  position : List Nat
deriving DecidableEq, Repr

/-- The object after `spa_zero(*info)`: every member is zero (`position` has 64
entries). -/
def spa_audio_info.zero : spa_audio_info where
  media_type := 0
  media_subtype := 0
  format := 0
  flags := 0
  rate := 0
  channels := 0
  position := List.replicate 64 0

/-- A call of the encoding engine (`ldacBT_*`) with its arguments, as recorded in the
order the adapter makes them. -/
inductive engine_call where
  | get_handle
  | init_handle_encode (ldac : Nat) (mtu eqmid channel_mode fmt frequency : Int)
  | free_handle (ldac : Nat)
  | alter_eqmid_priority (ldac : Nat) (priority : Int)
deriving DecidableEq, Repr

/-- The number of `ldacBT_get_handle` calls in a record of engine calls. -/
def acquisitions (calls : List engine_call) : Nat :=
  calls.countP (fun c => match c with
    | .get_handle => true
    | _ => false)

/-- The handles passed to `ldacBT_free_handle` in a record of engine calls, one entry
for each call, in order. -/
def released (calls : List engine_call) : List Nat :=
  calls.filterMap (fun c => match c with
    | .free_handle h => some h
    | _ => none)

/-- The number of `ldacBT_init_handle_encode` calls in a record of engine calls. -/
def configurations (calls : List engine_call) : Nat :=
  calls.countP (fun c => match c with
    | .init_handle_encode _ _ _ _ _ _ => true
    | _ => false)

/-- What the environment answers during one `codec_init`: the pointer returned by
`calloc` (0 for `NULL`), the handle returned by `ldacBT_get_handle` (0 for `NULL`), the
value of `errno` left by a failed allocation, and the status that
`ldacBT_init_handle_encode` returns for given arguments. -/
structure init_env where
  calloc : Nat
  get_handle : Nat
  errno : Int
  init_handle_encode : Nat → Int → Int → Int → Int → Int → Int

/-- What `codec_init` leaves behind: the returned session (`none` for `NULL`), the
caller's `*info`, the value of `errno`, and the engine calls made, in order. -/
structure init_result where
  ret : Option impl
  info : spa_audio_info
  errno : Int
  calls : List engine_call
deriving DecidableEq, Repr

/-- The session right after `calloc(1, sizeof(struct impl))`: all members zero. -/
def impl.zero : impl where
  ldac := 0
  header := 0
  payload := 0
  mtu := 0
  eqmid := 0
  channel_mode := 0
  frequency := 0
  fmt := 0
  lsu := 0
  codesize := 0
  frame_length := 0

/-- The `error:` label of `codec_init` (lines 247-252) entered with the status `res`:
the handle is freed if it is not `NULL`, `errno` becomes `-res`, `NULL` is returned. -/
def init_error (this : impl) (info : spa_audio_info) (res : Int)
    (calls : List engine_call) : init_result where
  ret := none
  info := info
  errno := -res
  calls := if this.ldac ≠ 0 then calls ++ [engine_call.free_handle this.ldac] else calls

/-- The `switch (conf->frequency)` of `codec_init` (lines 170-198): the rate in Hz and
the `lsu` value of the matching case, `none` for the `default` case. -/
def init_frequency (K : Headers) (conf : a2dp_ldac_t) : Option (Nat × Int) :=
  if conf.frequency = K.LDACBT_SAMPLING_FREQ_044100 then some (44100, 128)
  else if conf.frequency = K.LDACBT_SAMPLING_FREQ_048000 then some (48000, 128)
  else if conf.frequency = K.LDACBT_SAMPLING_FREQ_088200 then some (88200, 256)
  else if conf.frequency = K.LDACBT_SAMPLING_FREQ_096000 then some (96000, 256)
  else if conf.frequency = K.LDACBT_SAMPLING_FREQ_176400 then some (176400, 512)
  else if conf.frequency = K.LDACBT_SAMPLING_FREQ_192000 then some (192000, 512)
  else none

/-- The `switch (conf->channel_mode)` of `codec_init` (lines 201-214): the channel
count of the matching case, `none` for the `default` case. -/
def init_channels (K : Headers) (conf : a2dp_ldac_t) : Option Nat :=
  if conf.channel_mode = K.LDACBT_CHANNEL_MODE_STEREO then some 2
  else if conf.channel_mode = K.LDACBT_CHANNEL_MODE_DUAL_CHANNEL then some 2
  else if conf.channel_mode = K.LDACBT_CHANNEL_MODE_MONO then some 1
  else none

/-- The `switch (this->eqmid)` of `codec_init` (lines 217-230): the frame length of
the matching case, `none` for the `default` case. -/
def init_frame_length (C : EngineConsts) (eqmid : Int) : Option Int :=
  if eqmid = C.LDACBT_EQMID_HQ then some 330
  else if eqmid = C.LDACBT_EQMID_SQ then some 220
  else if eqmid = C.LDACBT_EQMID_MQ then some 110
  else none

/-- Function `codec_init` (lines 148-253). `config` is the buffer behind the `config`
pointer, read as an `a2dp_ldac_t`; `config_len` is not read by the function; `info` is
the caller's object before the call. The result is `none` when the behaviour is
undefined: after a failed `calloc` the `error:` label reads `this->ldac` through the
`NULL` pointer. The heap block of the session itself is not tracked. -/
def codec_init (K : Headers) (C : EngineConsts) (E : init_env) (_flags : Nat)
    (config : List Nat) (_config_len : Nat) (info : spa_audio_info) : Option init_result :=
  let conf := a2dp_ldac_t.of_bytes K config
  if E.calloc = 0 then
    none
  else
    let this := impl.zero
    let this := { this with ldac := E.get_handle }
    let calls := [engine_call.get_handle]
    if this.ldac = 0 then
      some (init_error this info (-E.errno) calls)
    else
      let this := { this with eqmid := C.LDACBT_EQMID_SQ }
      let info := spa_audio_info.zero
      let info := { info with media_type := C.SPA_MEDIA_TYPE_audio }
      let info := { info with media_subtype := C.SPA_MEDIA_SUBTYPE_raw }
      let info := { info with format := C.SPA_AUDIO_FORMAT_S16 }
      let this := { this with fmt := C.LDACBT_SMPL_FMT_S16 }
      match init_frequency K conf with
      | none => some (init_error this info (-EINVAL) calls)
      | some (rate, lsu) =>
        let info := { info with rate := rate }
        let this := { this with lsu := lsu }
        let this := { this with frequency := (info.rate : Int) }
        match init_channels K conf with
        | none => some (init_error this info (-EINVAL) calls)
        | some channels =>
          let info := { info with channels := channels }
          let this := { this with channel_mode := (conf.channel_mode : Int) }
          match init_frame_length C this.eqmid with
          | none => some (init_error this info (-EINVAL) calls)
          | some frame_length =>
            let this := { this with frame_length := frame_length }
            let res := E.init_handle_encode this.ldac this.mtu this.eqmid
              this.channel_mode this.fmt this.frequency
            let calls := calls ++ [engine_call.init_handle_encode this.ldac this.mtu
              this.eqmid this.channel_mode this.fmt this.frequency]
            if res < 0 then
              some (init_error this info res calls)
            else
              let this := { this with codesize := this.lsu * (info.channels : Int) * 2 }
              some { ret := some this, info := info, errno := E.errno, calls := calls }

/-- Function `codec_deinit` (lines 255-261): the engine calls it makes. The heap block
of the session itself is not tracked. -/
def codec_deinit (this : impl) : List engine_call :=
  if this.ldac ≠ 0 then [engine_call.free_handle this.ldac] else []

/-- Function `codec_reduce_bitpool` (lines 116-120): the return value, the session
after the call and the engine call made. `alter` is the status that
`ldacBT_alter_eqmid_priority` returns for given arguments. -/
def codec_reduce_bitpool (C : EngineConsts) (alter : Nat → Int → Int) (this : impl) :
    Int × impl × List engine_call :=
  (alter this.ldac C.LDACBT_EQMID_INC_CONNECTION, this,
    [engine_call.alter_eqmid_priority this.ldac C.LDACBT_EQMID_INC_CONNECTION])

/-- Function `codec_increase_bitpool` (lines 122-126): the return value, the session
after the call and the engine call made. `alter` is the status that
`ldacBT_alter_eqmid_priority` returns for given arguments. -/
def codec_increase_bitpool (C : EngineConsts) (alter : Nat → Int → Int) (this : impl) :
    Int × impl × List engine_call :=
  (alter this.ldac C.LDACBT_EQMID_INC_QUALITY, this,
    [engine_call.alter_eqmid_priority this.ldac C.LDACBT_EQMID_INC_QUALITY])

/-- An environment in which the allocation and the handle acquisition succeed and the
engine accepts every configuration, used to evaluate the embedding. -/
def ok_env : init_env where
  calloc := 4096
  get_handle := 7
  errno := 0
  init_handle_encode := fun _ _ _ _ _ _ => 0

/-- An environment in which the allocation and the handle acquisition succeed and the
engine answers every configuration with the status `-1`, used to evaluate the
embedding. -/
def rejecting_env : init_env where
  calloc := 4096
  get_handle := 7
  errno := 0
  init_handle_encode := fun _ _ _ _ _ _ => -1

/-! ## Packet memory, the RTP preamble and encoding -/

/-- The memory `mem` (a list of bytes indexed by address) after the bytes `bytes` have
been stored from address `addr` on. -/
def mem_store (mem : List Nat) (addr : Nat) (bytes : List Nat) : List Nat :=
  mem.take addr ++ bytes ++ mem.drop (addr + bytes.length)

/-- The byte of `mem` at address `addr`. -/
def mem_byte (mem : List Nat) (addr : Nat) : Nat := mem.getD addr 0

/-- A bit-field of a packed struct: the offset of its byte in the struct, the position
of its lowest bit in that byte, and its width in bits. -/
structure bit_field where
  byte : Nat
  shift : Nat
  width : Nat
deriving DecidableEq, Repr

/-- The value of the bits `shift .. shift + width - 1` of a byte. -/
def bits_get (b shift width : Nat) : Nat := (b / 2 ^ shift) % 2 ^ width

/-- The byte `b` with the bits `shift .. shift + width - 1` replaced by the low `width`
bits of `val`; the other bits keep their values. -/
def bits_set (b shift width : Nat) (val : Int) : Nat :=
  b - bits_get b shift width * 2 ^ shift + (val % (2 ^ width : Int)).toNat * 2 ^ shift

/-- Reading a bit-field of the struct at address `base`. -/
def field_load (mem : List Nat) (base : Nat) (f : bit_field) : Nat :=
  bits_get (mem_byte mem (base + f.byte)) f.shift f.width

/-- Assigning `val` to a bit-field of the struct at address `base`: the value is
truncated to the width of the field. -/
def field_store (mem : List Nat) (base : Nat) (f : bit_field) (val : Int) : List Nat :=
  mem_store mem (base + f.byte)
    [bits_set (mem_byte mem (base + f.byte)) f.shift f.width val]

/-- The bytes of an `n`-byte unsigned value in network byte order, most significant
first: what a field holds after it is assigned `htons(x)` or `htonl(x)`. -/
def be_bytes (n x : Nat) : List Nat := (le_bytes n x).reverse

/-- Modelled from the spec: `struct rtp_header` is declared in `rtp.h`, which is not in
the source tree. The fixed RTP header has the version in the two highest bits of its
first byte. -/
def rtp_header_v : bit_field := { byte := 0, shift := 6, width := 2 }

/-- Modelled from the spec: the padding flag of `struct rtp_header`. -/
def rtp_header_p : bit_field := { byte := 0, shift := 5, width := 1 }

/-- Modelled from the spec: the extension flag of `struct rtp_header`. -/
def rtp_header_x : bit_field := { byte := 0, shift := 4, width := 1 }

/-- Modelled from the spec: the CSRC count of `struct rtp_header`. -/
def rtp_header_cc : bit_field := { byte := 0, shift := 0, width := 4 }

/-- Modelled from the spec: the marker flag of `struct rtp_header`. -/
def rtp_header_m : bit_field := { byte := 1, shift := 7, width := 1 }

/-- Modelled from the spec: the payload type of `struct rtp_header`, the low seven bits
of its second byte. -/
def rtp_header_pt : bit_field := { byte := 1, shift := 0, width := 7 }

/-- Modelled from the spec: the offset of the 16-bit `sequence_number` member of
`struct rtp_header`. -/
def rtp_header_sequence_number : Nat := 2

/-- Modelled from the spec: the offset of the 32-bit `timestamp` member of
`struct rtp_header`. -/
def rtp_header_timestamp : Nat := 4

/-- Modelled from the spec: the offset of the 32-bit `ssrc` member of
`struct rtp_header`. -/
def rtp_header_ssrc : Nat := 8

/-- Modelled from the spec: `struct rtp_payload` is declared in `rtp.h`, which is not
in the source tree. The frame count is the 4-bit field in the low bits of the one-byte
payload preamble. -/
def rtp_payload_frame_count : bit_field := { byte := 0, shift := 0, width := 4 }

/-- Modelled from the spec: the four bits of the payload preamble above the frame
count (a reserved bit and the three fragmentation flags), taken together. -/
def rtp_payload_flags : bit_field := { byte := 0, shift := 4, width := 4 }

/-- Function `codec_start_encode` (lines 263-279): the return value, the session and
the memory after the call. `dst` is the address of the destination buffer in `mem`;
`dst_size` is not read by the function; `seqnum` is a `uint16_t` and `timestamp` a
`uint32_t`. -/
def codec_start_encode (this : impl) (mem : List Nat) (dst _dst_size seqnum timestamp : Nat) :
    Int × impl × List Nat :=
  let this := { this with header := dst }
  let this := { this with payload := dst + sizeof_rtp_header }
  let mem := mem_store mem this.header
    (List.replicate (sizeof_rtp_header + sizeof_rtp_payload) 0)
  let mem := field_store mem this.payload rtp_payload_frame_count 0
  let mem := field_store mem this.header rtp_header_v 2
  let mem := field_store mem this.header rtp_header_pt 1
  let mem := mem_store mem (this.header + rtp_header_sequence_number) (be_bytes 2 seqnum)
  let mem := mem_store mem (this.header + rtp_header_timestamp) (be_bytes 4 timestamp)
  let mem := mem_store mem (this.header + rtp_header_ssrc) (be_bytes 4 1)
  (((sizeof_rtp_header + sizeof_rtp_payload : Nat) : Int), this, mem)

/-- What one call of `ldacBT_encode` reports: its status, the values it leaves in
`src_used`, `dst_used` and `frame_num`, and the bytes it has stored from `dst` on. -/
structure encode_report where
  res : Int
  src_used : Int
  dst_used : Int
  frame_num : Int
  written : List Nat
deriving DecidableEq, Repr

/-- Function `codec_encode` (lines 281-301): the return value, the session, the memory
and the caller's `*dst_out` after the call. `R` is what the engine reports for this
call, `dst` the address in `mem` the engine writes to, `dst_out` the value of
`*dst_out` before the call. The result is `none` when the behaviour is undefined: the
frame counter is updated through `this->payload`, which is `NULL` before the first
`codec_start_encode`. -/
def codec_encode (this : impl) (mem : List Nat) (R : encode_report) (_src_size dst _dst_size : Nat)
    (dst_out : Nat) : Option (Int × impl × List Nat × Nat) :=
  let mem := mem_store mem dst R.written
  if R.res < 0 then
    some (-EINVAL, this, mem, dst_out)
  else
    let dst_out := size_of_int R.dst_used
    if this.payload = 0 then
      none
    else
      let mem := field_store mem this.payload rtp_payload_frame_count
        ((field_load mem this.payload rtp_payload_frame_count : Int) + R.frame_num)
      some (R.src_used, this, mem, dst_out)

/-- One call of `codec_encode` by the transport manager: what the engine reports and
the arguments of the call. -/
structure encode_call where
  report : encode_report
  src_size : Nat
  dst : Nat
  dst_size : Nat
deriving DecidableEq, Repr

/-- A sequence of `codec_encode` calls made one after the other on the same session:
the session, the memory and `*dst_out` after the last one. -/
def encode_all : impl → List Nat → Nat → List encode_call → Option (impl × List Nat × Nat)
  | this, mem, dst_out, [] => some (this, mem, dst_out)
  | this, mem, dst_out, c :: cs =>
    match codec_encode this mem c.report c.src_size c.dst c.dst_size dst_out with
    | none => none
    | some (_, this, mem, dst_out) => encode_all this mem dst_out cs

/-- The frame counter of the packet whose preamble the session points to. -/
def frame_counter (this : impl) (mem : List Nat) : Nat :=
  field_load mem this.payload rtp_payload_frame_count

/-- The rate table of the block-size claim: each rate constant with its rate in Hz and
its number of samples per block (128 for 44100/48000 Hz, 256 for 88200/96000 Hz, 512
for 176400/192000 Hz). -/
def spec_rate_table (K : Headers) : List (Nat × Nat × Nat) :=
  [(K.LDACBT_SAMPLING_FREQ_044100, 44100, 128), (K.LDACBT_SAMPLING_FREQ_048000, 48000, 128),
   (K.LDACBT_SAMPLING_FREQ_088200, 88200, 256), (K.LDACBT_SAMPLING_FREQ_096000, 96000, 256),
   (K.LDACBT_SAMPLING_FREQ_176400, 176400, 512), (K.LDACBT_SAMPLING_FREQ_192000, 192000, 512)]

/-- The channel table of the block-size claim: each mode constant with its channel
count (2 for stereo and dual channel, 1 for mono). -/
def spec_mode_table (K : Headers) : List (Nat × Nat) :=
  [(K.LDACBT_CHANNEL_MODE_STEREO, 2), (K.LDACBT_CHANNEL_MODE_DUAL_CHANNEL, 2),
   (K.LDACBT_CHANNEL_MODE_MONO, 1)]

/-- The session that `codec_init` has built when it calls the engine's configure
operation for the rate `hz` with `spb` samples per block and the mode field `m`. -/
def configured_session (C : EngineConsts) (E : init_env) (hz spb m : Nat) : impl :=
  { impl.zero with
    ldac := E.get_handle
    eqmid := C.LDACBT_EQMID_SQ
    fmt := C.LDACBT_SMPL_FMT_S16
    lsu := (spb : Int)
    frequency := (hz : Int)
    channel_mode := (m : Int)
    frame_length := 220 }

/-- The audio description that `codec_init` has written when it calls the engine's
configure operation. -/
def configured_info (C : EngineConsts) (hz ch : Nat) : spa_audio_info :=
  { spa_audio_info.zero with
    media_type := C.SPA_MEDIA_TYPE_audio
    media_subtype := C.SPA_MEDIA_SUBTYPE_raw
    format := C.SPA_AUDIO_FORMAT_S16
    rate := hz
    channels := ch }

/-- Three successful `codec_encode` calls reporting 4, 0 and 7 frames, with the engine
output placed after a preamble at addresses 4 to 16; used to evaluate the embedding. -/
def calls_4_0_7 : List encode_call :=
  [{ report := { res := 0, src_used := 512, dst_used := 3, frame_num := 4, written := [1, 2, 3] }
     src_size := 512
     dst := 17
     dst_size := 23 },
   { report := { res := 0, src_used := 512, dst_used := 0, frame_num := 0, written := [] }
     src_size := 512
     dst := 20
     dst_size := 20 },
   { report := { res := 0, src_used := 512, dst_used := 2, frame_num := 7, written := [4, 5] }
     src_size := 512
     dst := 20
     dst_size := 20 }]

/-- Two successful `codec_encode` calls reporting 9 frames each, with the engine output
placed after a preamble at addresses 4 to 16; used to evaluate the embedding. -/
def calls_9_9 : List encode_call :=
  [{ report := { res := 0, src_used := 512, dst_used := 3, frame_num := 9, written := [1, 2, 3] }
     src_size := 512
     dst := 17
     dst_size := 23 },
   { report := { res := 0, src_used := 512, dst_used := 3, frame_num := 9, written := [4, 5, 6] }
     src_size := 512
     dst := 20
     dst_size := 20 }]

/-! ## Sessions reachable from `codec_init` -/

/-- One operation on a session after its construction: `session_step C s s2` holds
when a call of `codec_get_num_blocks`, `codec_start_encode`, `codec_encode`,
`codec_reduce_bitpool` or `codec_increase_bitpool` on the session `s` returns and
leaves the session `s2`. -/
inductive session_step (C : EngineConsts) : impl → impl → Prop where
  | get_num_blocks (s : impl) (mtu : Nat) (n : Int) (s2 : impl)
      (h : codec_get_num_blocks s mtu = some (n, s2)) : session_step C s s2
  | start_encode (s : impl) (mem : List Nat) (dst dst_size seqnum timestamp : Nat) :
      session_step C s (codec_start_encode s mem dst dst_size seqnum timestamp).2.1
  | encode (s : impl) (mem : List Nat) (R : encode_report) (src_size dst dst_size dst_out : Nat)
      (r : Int × impl × List Nat × Nat)
      (h : codec_encode s mem R src_size dst dst_size dst_out = some r) :
      session_step C s r.2.1
  | reduce_bitpool (s : impl) (alter : Nat → Int → Int) :
      session_step C s (codec_reduce_bitpool C alter s).2.1
  | increase_bitpool (s : impl) (alter : Nat → Int → Int) :
      session_step C s (codec_increase_bitpool C alter s).2.1

/-- The sessions reachable from `codec_init`: the session returned by a successful
`codec_init`, and every session that a later operation leaves. -/
inductive reachable (K : Headers) (C : EngineConsts) : impl → Prop where
  | init (E : init_env) (flags : Nat) (config : List Nat) (config_len : Nat)
      (info : spa_audio_info) (res : init_result) (s : impl)
      (h : codec_init K C E flags config config_len info = some res)
      (hs : res.ret = some s) : reachable K C s
  | step (s s2 : impl) (hr : reachable K C s) (hstep : session_step C s s2) :
      reachable K C s2

/-- The session that `codec_init` returns for 48000 Hz stereo under `spec_headers`,
`spec_engine` and `ok_env`, after a `codec_get_num_blocks` query with MTU 679; used to
evaluate the embedding. -/
def queried_session : impl where
  ldac := 7
  header := 0
  payload := 0
  mtu := 679
  eqmid := 1
  channel_mode := 4
  frequency := 48000
  fmt := 2
  lsu := 128
  codesize := 512
  frame_length := 220

/-! ## Single bits -/

theorem single_bit_eq_two_pow {c : Nat} (h : single_bit c) : ∃ i, i < 8 ∧ c = 2 ^ i := by
  simp only [single_bit, List.mem_cons, List.mem_singleton, List.not_mem_nil, or_false] at h
  rcases h with h | h | h | h | h | h | h | h
  · exact ⟨0, by decide, h⟩
  · exact ⟨1, by decide, h⟩
  · exact ⟨2, by decide, h⟩
  · exact ⟨3, by decide, h⟩
  · exact ⟨4, by decide, h⟩
  · exact ⟨5, by decide, h⟩
  · exact ⟨6, by decide, h⟩
  · exact ⟨7, by decide, h⟩

theorem and_two_pow_ne_zero (x i : Nat) : x &&& 2 ^ i ≠ 0 ↔ x.testBit i = true := by
  rw [Nat.and_two_pow]
  cases h : x.testBit i <;> simp

theorem and_two_pow_eq_zero (x i : Nat) : x &&& 2 ^ i = 0 ↔ x.testBit i = false := by
  rw [Nat.and_two_pow]
  cases h : x.testBit i <;> simp

theorem single_bit_ne_zero {c : Nat} (h : single_bit c) : c ≠ 0 := by
  obtain ⟨i, -, rfl⟩ := single_bit_eq_two_pow h
  exact (Nat.two_pow_pos i).ne'

theorem single_bit_lt {c : Nat} (h : single_bit c) : c < 256 := by
  obtain ⟨i, hi, rfl⟩ := single_bit_eq_two_pow h
  exact Nat.pow_lt_pow_right (by decide) hi

theorem u8_single_bit {c : Nat} (h : single_bit c) : u8 c = c :=
  Nat.mod_eq_of_lt (single_bit_lt h)

theorem single_bit_and_self {c : Nat} (h : single_bit c) : c &&& c ≠ 0 := by
  rw [Nat.and_self]; exact single_bit_ne_zero h

theorem single_bit_and_eq_zero {a b : Nat} (ha : single_bit a) (hb : single_bit b)
    (hne : a ≠ b) : a &&& b = 0 := by
  obtain ⟨i, -, rfl⟩ := single_bit_eq_two_pow ha
  obtain ⟨j, -, rfl⟩ := single_bit_eq_two_pow hb
  rw [and_two_pow_eq_zero, Nat.testBit_two_pow]
  simp only [decide_eq_false_iff_not]
  rintro rfl
  exact hne rfl

theorem u8_and {c : Nat} (x : Nat) (h : single_bit c) : u8 x &&& c = x &&& c := by
  obtain ⟨i, hi, rfl⟩ := single_bit_eq_two_pow h
  have h8 : u8 x = x % 2 ^ 8 := rfl
  rw [Nat.and_two_pow, Nat.and_two_pow, h8, Nat.testBit_mod_two_pow]
  simp [hi]

/-! ## The sample-rate scan -/

theorem rate_step_of_not_set {c : Nat} {conf : a2dp_ldac_t} (h : conf.frequency &&& c = 0) :
    rate_step c conf = conf := by
  simp [rate_step, h]

theorem rate_step_of_set {c : Nat} {conf : a2dp_ldac_t} (h : conf.frequency &&& c ≠ 0) :
    rate_step c conf = { conf with frequency := u8 c } := by
  simp [rate_step, h]

/-- When no bit below 192000 Hz is set the five `if` statements change nothing and
the outcome is decided by the 192000 Hz bit. -/
theorem select_frequency_of_no_lower (K : Headers) (conf : a2dp_ldac_t)
    (hlow : ∀ c ∈ K.lower_rates, conf.frequency &&& c = 0) :
    select_frequency K conf =
      if conf.frequency &&& K.LDACBT_SAMPLING_FREQ_192000 ≠ 0 then
        some { conf with frequency := u8 K.LDACBT_SAMPLING_FREQ_192000 }
      else none := by
  simp only [Headers.lower_rates, List.mem_cons, List.mem_singleton, List.not_mem_nil,
    or_false, forall_eq_or_imp, forall_eq] at hlow
  obtain ⟨h1, h2, h3, h4, h5⟩ := hlow
  simp only [select_frequency, rate_step_of_not_set h1, rate_step_of_not_set h2,
    rate_step_of_not_set h3, rate_step_of_not_set h4, rate_step_of_not_set h5]

/-- When a bit below 192000 Hz is set, the first such bit overwrites the field, every
later test reads that single bit, and the final test fails. -/
theorem select_frequency_of_lower (K : Headers) (hK : K.Valid) (conf : a2dp_ldac_t)
    (c : Nat) (hc : c ∈ K.lower_rates) (hset : conf.frequency &&& c ≠ 0) :
    select_frequency K conf = none := by
  obtain ⟨hs, hnd, -⟩ := hK
  simp only [Headers.rates, List.mem_cons, List.mem_singleton, List.not_mem_nil,
    or_false, forall_eq_or_imp, forall_eq] at hs
  obtain ⟨s1, s2, s3, s4, s5, s6⟩ := hs
  simp only [Headers.rates, List.nodup_cons, List.mem_cons, List.mem_singleton,
    List.not_mem_nil, or_false, not_or, List.nodup_nil, and_true, not_false_eq_true] at hnd
  obtain ⟨⟨n12, n13, n14, n15, n16⟩, ⟨n23, n24, n25, n26⟩, ⟨n34, n35, n36⟩,
    ⟨n45, n46⟩, n56⟩ := hnd
  have d12 := single_bit_and_eq_zero s1 s2 n12
  have d13 := single_bit_and_eq_zero s1 s3 n13
  have d14 := single_bit_and_eq_zero s1 s4 n14
  have d15 := single_bit_and_eq_zero s1 s5 n15
  have d16 := single_bit_and_eq_zero s1 s6 n16
  have d23 := single_bit_and_eq_zero s2 s3 n23
  have d24 := single_bit_and_eq_zero s2 s4 n24
  have d25 := single_bit_and_eq_zero s2 s5 n25
  have d26 := single_bit_and_eq_zero s2 s6 n26
  have d34 := single_bit_and_eq_zero s3 s4 n34
  have d35 := single_bit_and_eq_zero s3 s5 n35
  have d36 := single_bit_and_eq_zero s3 s6 n36
  have d45 := single_bit_and_eq_zero s4 s5 n45
  have d46 := single_bit_and_eq_zero s4 s6 n46
  have d56 := single_bit_and_eq_zero s5 s6 n56
  have u1 := u8_single_bit s1
  have u2 := u8_single_bit s2
  have u3 := u8_single_bit s3
  have u4 := u8_single_bit s4
  have u5 := u8_single_bit s5
  by_cases h1 : conf.frequency &&& K.LDACBT_SAMPLING_FREQ_044100 = 0
  · by_cases h2 : conf.frequency &&& K.LDACBT_SAMPLING_FREQ_048000 = 0
    · by_cases h3 : conf.frequency &&& K.LDACBT_SAMPLING_FREQ_088200 = 0
      · by_cases h4 : conf.frequency &&& K.LDACBT_SAMPLING_FREQ_096000 = 0
        · by_cases h5 : conf.frequency &&& K.LDACBT_SAMPLING_FREQ_176400 = 0
          · exfalso
            simp only [Headers.lower_rates, List.mem_cons, List.mem_singleton,
              List.not_mem_nil, or_false] at hc
            rcases hc with rfl | rfl | rfl | rfl | rfl
            · exact hset h1
            · exact hset h2
            · exact hset h3
            · exact hset h4
            · exact hset h5
          · simp [select_frequency, rate_step, h1, h2, h3, h4, h5, u5, d56]
        · simp [select_frequency, rate_step, h1, h2, h3, h4, u4, d45, d46]
      · simp [select_frequency, rate_step, h1, h2, h3, u3, d34, d35, d36]
    · simp [select_frequency, rate_step, h1, h2, u2, d23, d24, d25, d26]
  · simp [select_frequency, rate_step, h1, u1, d12, d13, d14, d15, d16]

/-- The sample-rate scan reads and writes the `frequency` field only. -/
theorem select_frequency_channel_mode (K : Headers) (conf conf1 : a2dp_ldac_t)
    (h : select_frequency K conf = some conf1) :
    conf1.channel_mode = conf.channel_mode ∧ conf1.info = conf.info := by
  have hstep : ∀ c (x : a2dp_ldac_t),
      (rate_step c x).channel_mode = x.channel_mode ∧ (rate_step c x).info = x.info := by
    intro c x
    unfold rate_step
    split <;> simp
  unfold select_frequency at h
  simp only at h
  split at h
  · cases h
    simp [hstep]
  · cases h

/-- Whether the sample-rate scan succeeds does not depend on the identifier fields. -/
theorem select_frequency_with_info (K : Headers) (conf : a2dp_ldac_t)
    (i : a2dp_vendor_codec_t) :
    select_frequency K { conf with info := i } =
      (select_frequency K conf).map (fun x => { x with info := i }) := by
  have hstep : ∀ c (x : a2dp_ldac_t),
      rate_step c { x with info := i } = { rate_step c x with info := i } := by
    intro c x
    unfold rate_step
    split <;> simp
  unfold select_frequency
  simp only [hstep]
  split <;> simp

/-! ## Negotiation: how `codec_select_config` ends -/

theorem select_config_of_rate_fail (K : Headers) (flags : Nat) (caps : List Nat)
    (caps_size : Nat) (config : List Nat) (hsize : sizeof_a2dp_ldac_t ≤ caps_size)
    (h : select_frequency K (a2dp_ldac_t.of_bytes K caps) = none) :
    codec_select_config K flags caps caps_size config = (-ENOTSUP, config) := by
  simp [codec_select_config, not_lt.mpr hsize, select_frequency_with_info, h]

theorem select_config_of_rate_ok (K : Headers) (flags : Nat) (caps : List Nat)
    (caps_size : Nat) (config : List Nat) (hsize : sizeof_a2dp_ldac_t ≤ caps_size)
    (conf1 : a2dp_ldac_t) (h : select_frequency K (a2dp_ldac_t.of_bytes K caps) = some conf1) :
    codec_select_config K flags caps caps_size config =
      match select_channel_mode K { conf1 with
          info := { vendor_id := K.LDAC_VENDOR_ID, codec_id := K.LDAC_CODEC_ID } } with
      | none => (-ENOTSUP, config)
      | some conf => (sizeof_a2dp_ldac_t, memcpy config (conf.bytes K) sizeof_a2dp_ldac_t) := by
  simp [codec_select_config, not_lt.mpr hsize, select_frequency_with_info, h]

theorem mem_lower_rates_of_ne (K : Headers) (c : Nat) (hc : c ∈ K.rates)
    (hne : c ≠ K.LDACBT_SAMPLING_FREQ_192000) : c ∈ K.lower_rates := by
  simp only [Headers.rates, List.mem_cons, List.mem_singleton, List.not_mem_nil,
    or_false] at hc
  simp only [Headers.lower_rates, List.mem_cons, List.mem_singleton, List.not_mem_nil,
    or_false]
  tauto

/-- C1 (the code departs from the claim): on every capability buffer of at least the
structure size whose sample-rate mask has two distinct rate bits set,
`codec_select_config` returns `-ENOTSUP` and leaves `config` as it was; it does not
select the highest of the set rates. -/
theorem select_config_two_rate_bits (K : Headers) (hK : K.Valid) (flags : Nat)
    (caps : List Nat) (caps_size : Nat) (config : List Nat)
    (hsize : sizeof_a2dp_ldac_t ≤ caps_size) (_hbuf : caps_size ≤ caps.length)
    (a b : Nat) (ha : a ∈ K.rates) (hb : b ∈ K.rates) (hab : a ≠ b)
    (hseta : (a2dp_ldac_t.of_bytes K caps).frequency &&& a ≠ 0)
    (hsetb : (a2dp_ldac_t.of_bytes K caps).frequency &&& b ≠ 0) :
    codec_select_config K flags caps caps_size config = (-ENOTSUP, config) := by
  apply select_config_of_rate_fail K flags caps caps_size config hsize
  by_cases h : a = K.LDACBT_SAMPLING_FREQ_192000
  · exact select_frequency_of_lower K hK _ b
      (mem_lower_rates_of_ne K b hb (fun hb2 => hab (h.trans hb2.symm))) hsetb
  · exact select_frequency_of_lower K hK _ a (mem_lower_rates_of_ne K a ha h) hseta

/-- C1 at the claim's own example: with the rate mask {44100, 96000, 176400} and the
stereo bit, the call returns `-ENOTSUP` and `config` keeps its bytes. -/
theorem select_config_two_rate_bits_witness :
    spec_headers.Valid ∧
    (a2dp_ldac_t.of_bytes spec_headers [0x2d, 0x01, 0, 0, 0xaa, 0, 0x19, 0x04]).frequency
      &&& 0x01 ≠ 0 ∧
    (a2dp_ldac_t.of_bytes spec_headers [0x2d, 0x01, 0, 0, 0xaa, 0, 0x19, 0x04]).frequency
      &&& 0x10 ≠ 0 ∧
    codec_select_config spec_headers 0 [0x2d, 0x01, 0, 0, 0xaa, 0, 0x19, 0x04] 8
      [0, 0, 0, 0, 0, 0, 0, 0] = (-ENOTSUP, [0, 0, 0, 0, 0, 0, 0, 0]) :=
  ⟨by decide, by decide, by decide,
    select_config_two_rate_bits spec_headers (by decide) 0
      [0x2d, 0x01, 0, 0, 0xaa, 0, 0x19, 0x04] 8 [0, 0, 0, 0, 0, 0, 0, 0]
      (by decide) (by decide) 0x01 0x10 (by decide) (by decide) (by decide)
      (by decide) (by decide)⟩

theorem bytes_length (K : Headers) (conf : a2dp_ldac_t) :
    (conf.bytes K).length = sizeof_a2dp_ldac_t := by
  cases hb : K.big_endian <;>
    simp [a2dp_ldac_t.bytes, field_bytes, le_bytes, hb, sizeof_a2dp_ldac_t]

/-- Reading back the two mask bytes that `memcpy(config, &conf, sizeof(conf))` wrote. -/
theorem of_bytes_memcpy (K : Headers) (conf : a2dp_ldac_t) (config : List Nat) :
    (a2dp_ldac_t.of_bytes K
        (memcpy config (conf.bytes K) sizeof_a2dp_ldac_t)).frequency = u8 conf.frequency ∧
    (a2dp_ldac_t.of_bytes K
        (memcpy config (conf.bytes K) sizeof_a2dp_ldac_t)).channel_mode
      = u8 conf.channel_mode := by
  cases hb : K.big_endian <;>
    simp [a2dp_ldac_t.of_bytes, memcpy, a2dp_ldac_t.bytes, field_bytes, le_bytes, hb,
      sizeof_a2dp_ldac_t, u8]

/-- C2 (the code departs from the claim): when exactly one rate bit `r` and exactly
one mode bit `m` are set, `codec_select_config` returns `-ENOTSUP` and leaves `config`
as it was for each of the five rates below 192000 Hz; only for the 192000 Hz bit does
it return the structure size with that rate bit and that mode bit in `config`. -/
theorem select_config_single_bits (K : Headers) (hK : K.Valid) (flags : Nat)
    (caps : List Nat) (caps_size : Nat) (config : List Nat)
    (hsize : sizeof_a2dp_ldac_t ≤ caps_size) (_hbuf : caps_size ≤ caps.length)
    (r m : Nat) (hr : r ∈ K.rates) (hm : m ∈ K.modes)
    (hrset : (a2dp_ldac_t.of_bytes K caps).frequency &&& r ≠ 0)
    (hronly : ∀ c ∈ K.rates, c ≠ r → (a2dp_ldac_t.of_bytes K caps).frequency &&& c = 0)
    (hmset : (a2dp_ldac_t.of_bytes K caps).channel_mode &&& m ≠ 0)
    (hmonly : ∀ c ∈ K.modes, c ≠ m →
      (a2dp_ldac_t.of_bytes K caps).channel_mode &&& c = 0) :
    (r ≠ K.LDACBT_SAMPLING_FREQ_192000 →
      codec_select_config K flags caps caps_size config = (-ENOTSUP, config)) ∧
    (r = K.LDACBT_SAMPLING_FREQ_192000 →
      (codec_select_config K flags caps caps_size config).1 = sizeof_a2dp_ldac_t ∧
      (a2dp_ldac_t.of_bytes K
        (codec_select_config K flags caps caps_size config).2).frequency = r ∧
      (a2dp_ldac_t.of_bytes K
        (codec_select_config K flags caps caps_size config).2).channel_mode = m) := by
  constructor
  · intro hlow
    exact select_config_of_rate_fail K flags caps caps_size config hsize
      (select_frequency_of_lower K hK _ r (mem_lower_rates_of_ne K r hr hlow) hrset)
  · intro htop
    subst htop
    obtain ⟨hs, hnd, hms, hmnd, -⟩ := hK
    have hlowz : ∀ c ∈ K.lower_rates,
        (a2dp_ldac_t.of_bytes K caps).frequency &&& c = 0 := by
      intro c hc
      refine hronly c ?_ ?_
      · simp only [Headers.lower_rates, List.mem_cons, List.mem_singleton,
          List.not_mem_nil, or_false] at hc
        simp only [Headers.rates, List.mem_cons, List.mem_singleton, List.not_mem_nil,
          or_false]
        tauto
      · rintro rfl
        simp only [Headers.lower_rates, List.mem_cons, List.mem_singleton,
          List.not_mem_nil, or_false] at hc
        simp only [Headers.rates, List.nodup_cons, List.mem_cons, List.mem_singleton,
          List.not_mem_nil, or_false, not_or, List.nodup_nil, and_true,
          not_false_eq_true] at hnd
        tauto
    have hfreq := select_frequency_of_no_lower K _ hlowz
    rw [if_pos hrset] at hfreq
    rw [select_config_of_rate_ok K flags caps caps_size config hsize _ hfreq]
    have s6 : single_bit K.LDACBT_SAMPLING_FREQ_192000 := hs _ hr
    have sm : single_bit m := hms _ hm
    simp only [Headers.modes, List.mem_cons, List.mem_singleton, List.not_mem_nil,
      or_false, forall_eq_or_imp, forall_eq] at hmonly hms
    simp only [Headers.modes, List.mem_cons, List.mem_singleton, List.not_mem_nil,
      or_false] at hm
    obtain ⟨o1, o2, o3⟩ := hmonly
    obtain ⟨ms1, ms2, ms3⟩ := hms
    by_cases e1 : K.LDACBT_CHANNEL_MODE_STEREO = m
    · subst e1
      simp [select_channel_mode, hmset, of_bytes_memcpy, u8_single_bit s6,
        u8_single_bit ms1]
    · have z1 := o1 e1
      by_cases e2 : K.LDACBT_CHANNEL_MODE_DUAL_CHANNEL = m
      · subst e2
        simp [select_channel_mode, hmset, z1, of_bytes_memcpy, u8_single_bit s6,
          u8_single_bit ms2]
      · have z2 := o2 e2
        have e3 : m = K.LDACBT_CHANNEL_MODE_MONO := by tauto
        subst e3
        simp [select_channel_mode, hmset, z1, z2, of_bytes_memcpy, u8_single_bit s6,
          u8_single_bit ms3]

/-- C2 at a concrete input: the single rate bit 44100 with the single mode bit stereo
gives `-ENOTSUP` with `config` unchanged. -/
theorem select_config_single_bits_witness :
    codec_select_config spec_headers 0 [0x2d, 0x01, 0, 0, 0xaa, 0, 0x01, 0x04] 8
      [0, 0, 0, 0, 0, 0, 0, 0] = (-ENOTSUP, [0, 0, 0, 0, 0, 0, 0, 0]) :=
  (select_config_single_bits spec_headers (by decide) 0
      [0x2d, 0x01, 0, 0, 0xaa, 0, 0x01, 0x04] 8 [0, 0, 0, 0, 0, 0, 0, 0]
      (by decide) (by decide) 0x01 0x04 (by decide) (by decide) (by decide)
      (by decide) (by decide) (by decide)).1 (by decide)

/-- The rate mask that `codec_fill_caps` advertises has the 44100 Hz bit set. -/
theorem fill_caps_frequency (K : Headers) (hK : K.Valid) (flags : Nat) (buf : List Nat) :
    (a2dp_ldac_t.of_bytes K (codec_fill_caps K flags buf).2).frequency
      &&& K.LDACBT_SAMPLING_FREQ_044100 ≠ 0 := by
  obtain ⟨hs, -⟩ := hK
  have s1 : single_bit K.LDACBT_SAMPLING_FREQ_044100 := hs _ (by simp [Headers.rates])
  have hread := (of_bytes_memcpy K
    { info := { vendor_id := K.LDAC_VENDOR_ID, codec_id := K.LDAC_CODEC_ID }
      frequency := K.LDACBT_SAMPLING_FREQ_044100 |||
        K.LDACBT_SAMPLING_FREQ_048000 |||
        K.LDACBT_SAMPLING_FREQ_088200 |||
        K.LDACBT_SAMPLING_FREQ_096000 |||
        K.LDACBT_SAMPLING_FREQ_176400 |||
        K.LDACBT_SAMPLING_FREQ_192000
      channel_mode := K.LDACBT_CHANNEL_MODE_MONO |||
        K.LDACBT_CHANNEL_MODE_DUAL_CHANNEL |||
        K.LDACBT_CHANNEL_MODE_STEREO } buf).1
  simp only [codec_fill_caps]
  rw [hread, u8_and _ s1]
  obtain ⟨i, -, hi⟩ := single_bit_eq_two_pow s1
  rw [hi, and_two_pow_ne_zero]
  simp only [Nat.testBit_or, Nat.testBit_two_pow_self, Bool.true_or, Bool.or_true]

/-- C3 (the code departs from the claim): negotiating against the adapter's own
advertisement fails. `codec_select_config` applied to the buffer and the length
produced by `codec_fill_caps` returns `-ENOTSUP` and leaves `config` as it was; it
does not return the structure size with 192000 Hz and stereo. -/
theorem select_config_of_fill_caps (K : Headers) (hK : K.Valid) (flags flags2 : Nat)
    (buf config : List Nat) :
    codec_select_config K flags2 (codec_fill_caps K flags buf).2
      (codec_fill_caps K flags buf).1.toNat config = (-ENOTSUP, config) := by
  apply select_config_of_rate_fail K flags2 _ _ config (le_of_eq rfl)
  exact select_frequency_of_lower K hK _ K.LDACBT_SAMPLING_FREQ_044100
    (by simp [Headers.lower_rates]) (fill_caps_frequency K hK flags buf)

/-- C3 at a concrete input: the advertisement written over eight zero bytes is
refused with `-ENOTSUP`. -/
theorem select_config_of_fill_caps_witness :
    spec_headers.Valid ∧
    codec_fill_caps spec_headers 0 [0, 0, 0, 0, 0, 0, 0, 0]
      = (8, [0x2d, 0x01, 0, 0, 0xaa, 0, 0x3f, 0x07]) ∧
    codec_select_config spec_headers 0
      (codec_fill_caps spec_headers 0 [0, 0, 0, 0, 0, 0, 0, 0]).2
      (codec_fill_caps spec_headers 0 [0, 0, 0, 0, 0, 0, 0, 0]).1.toNat
      [0, 0, 0, 0, 0, 0, 0, 0] = (-ENOTSUP, [0, 0, 0, 0, 0, 0, 0, 0]) :=
  ⟨by decide, by decide,
    select_config_of_fill_caps spec_headers (by decide) 0 0 [0, 0, 0, 0, 0, 0, 0, 0]
      [0, 0, 0, 0, 0, 0, 0, 0]⟩

/-- C4: on every capability buffer of at least the structure size, if none of the six
rate bits is set in the sample-rate mask, or none of the three mode bits is set in
the channel-mode mask, `codec_select_config` returns `-ENOTSUP` and the `config`
buffer is unchanged. -/
theorem select_config_no_common_bits (K : Headers) (flags : Nat) (caps : List Nat)
    (caps_size : Nat) (config : List Nat)
    (hsize : sizeof_a2dp_ldac_t ≤ caps_size) (_hbuf : caps_size ≤ caps.length)
    (hnone : (∀ c ∈ K.rates, (a2dp_ldac_t.of_bytes K caps).frequency &&& c = 0) ∨
      (∀ c ∈ K.modes, (a2dp_ldac_t.of_bytes K caps).channel_mode &&& c = 0)) :
    codec_select_config K flags caps caps_size config = (-ENOTSUP, config) := by
  rcases hnone with hr | hm
  · apply select_config_of_rate_fail K flags caps caps_size config hsize
    have hlow : ∀ c ∈ K.lower_rates,
        (a2dp_ldac_t.of_bytes K caps).frequency &&& c = 0 := by
      intro c hc
      refine hr c ?_
      simp only [Headers.lower_rates, List.mem_cons, List.mem_singleton,
        List.not_mem_nil, or_false] at hc
      simp only [Headers.rates, List.mem_cons, List.mem_singleton, List.not_mem_nil,
        or_false]
      tauto
    rw [select_frequency_of_no_lower K _ hlow,
      if_neg (not_not.mpr (hr _ (by simp [Headers.rates])))]
  · cases hf : select_frequency K (a2dp_ldac_t.of_bytes K caps) with
    | none => exact select_config_of_rate_fail K flags caps caps_size config hsize hf
    | some conf1 =>
      rw [select_config_of_rate_ok K flags caps caps_size config hsize conf1 hf]
      have hcm := (select_frequency_channel_mode K _ conf1 hf).1
      simp only [Headers.modes, List.mem_cons, List.mem_singleton, List.not_mem_nil,
        or_false, forall_eq_or_imp, forall_eq] at hm
      simp [select_channel_mode, hcm, hm]

/-- C4 at concrete inputs: a zero rate mask with the stereo bit set, and the 192000 Hz
bit with a zero mode mask, are both answered with `-ENOTSUP` and an untouched
`config`. -/
theorem select_config_no_common_bits_witness :
    codec_select_config spec_headers 0 [0x2d, 0x01, 0, 0, 0xaa, 0, 0x00, 0x04] 8
      [9, 9, 9, 9, 9, 9, 9, 9] = (-ENOTSUP, [9, 9, 9, 9, 9, 9, 9, 9]) ∧
    codec_select_config spec_headers 0 [0x2d, 0x01, 0, 0, 0xaa, 0, 0x20, 0x00] 8
      [9, 9, 9, 9, 9, 9, 9, 9] = (-ENOTSUP, [9, 9, 9, 9, 9, 9, 9, 9]) :=
  ⟨select_config_no_common_bits spec_headers 0 [0x2d, 0x01, 0, 0, 0xaa, 0, 0x00, 0x04] 8
      [9, 9, 9, 9, 9, 9, 9, 9] (by decide) (by decide) (Or.inl (by decide)),
    select_config_no_common_bits spec_headers 0 [0x2d, 0x01, 0, 0, 0xaa, 0, 0x20, 0x00] 8
      [9, 9, 9, 9, 9, 9, 9, 9] (by decide) (by decide) (Or.inr (by decide))⟩

/-- C5: on every capability buffer on which the sample-rate step of
`codec_select_config` succeeds, the call returns the structure size and the channel
mode written to `config` is stereo if the stereo bit is set, whatever the other mode
bits are; otherwise dual channel if that bit is set; otherwise mono if that bit is
set. -/
theorem select_config_channel_ladder (K : Headers) (hK : K.Valid) (flags : Nat)
    (caps : List Nat) (caps_size : Nat) (config : List Nat)
    (hsize : sizeof_a2dp_ldac_t ≤ caps_size) (_hbuf : caps_size ≤ caps.length)
    (hrate : (select_frequency K (a2dp_ldac_t.of_bytes K caps)).isSome = true) :
    ((a2dp_ldac_t.of_bytes K caps).channel_mode &&& K.LDACBT_CHANNEL_MODE_STEREO ≠ 0 →
      (codec_select_config K flags caps caps_size config).1 = sizeof_a2dp_ldac_t ∧
      (a2dp_ldac_t.of_bytes K
        (codec_select_config K flags caps caps_size config).2).channel_mode
        = K.LDACBT_CHANNEL_MODE_STEREO) ∧
    ((a2dp_ldac_t.of_bytes K caps).channel_mode &&& K.LDACBT_CHANNEL_MODE_STEREO = 0 →
      (a2dp_ldac_t.of_bytes K caps).channel_mode
        &&& K.LDACBT_CHANNEL_MODE_DUAL_CHANNEL ≠ 0 →
      (codec_select_config K flags caps caps_size config).1 = sizeof_a2dp_ldac_t ∧
      (a2dp_ldac_t.of_bytes K
        (codec_select_config K flags caps caps_size config).2).channel_mode
        = K.LDACBT_CHANNEL_MODE_DUAL_CHANNEL) ∧
    ((a2dp_ldac_t.of_bytes K caps).channel_mode &&& K.LDACBT_CHANNEL_MODE_STEREO = 0 →
      (a2dp_ldac_t.of_bytes K caps).channel_mode
        &&& K.LDACBT_CHANNEL_MODE_DUAL_CHANNEL = 0 →
      (a2dp_ldac_t.of_bytes K caps).channel_mode &&& K.LDACBT_CHANNEL_MODE_MONO ≠ 0 →
      (codec_select_config K flags caps caps_size config).1 = sizeof_a2dp_ldac_t ∧
      (a2dp_ldac_t.of_bytes K
        (codec_select_config K flags caps caps_size config).2).channel_mode
        = K.LDACBT_CHANNEL_MODE_MONO) := by
  obtain ⟨conf1, hf⟩ := Option.isSome_iff_exists.mp hrate
  rw [select_config_of_rate_ok K flags caps caps_size config hsize conf1 hf]
  have hcm := (select_frequency_channel_mode K _ conf1 hf).1
  obtain ⟨-, -, hms, -⟩ := hK
  simp only [Headers.modes, List.mem_cons, List.mem_singleton, List.not_mem_nil,
    or_false, forall_eq_or_imp, forall_eq] at hms
  obtain ⟨ms1, ms2, ms3⟩ := hms
  refine ⟨?_, ?_, ?_⟩
  · intro h1
    simp [select_channel_mode, hcm, h1, of_bytes_memcpy, u8_single_bit ms1]
  · intro h1 h2
    simp [select_channel_mode, hcm, h1, h2, of_bytes_memcpy, u8_single_bit ms2]
  · intro h1 h2 h3
    simp [select_channel_mode, hcm, h1, h2, h3, of_bytes_memcpy, u8_single_bit ms3]

/-- C5 at a concrete input: with the 192000 Hz bit and the mode mask {stereo, mono}
the call returns 8 and the mode written to `config` is stereo. -/
theorem select_config_channel_ladder_witness :
    (select_frequency spec_headers (a2dp_ldac_t.of_bytes spec_headers
      [0x2d, 0x01, 0, 0, 0xaa, 0, 0x20, 0x05])).isSome = true ∧
    (codec_select_config spec_headers 0 [0x2d, 0x01, 0, 0, 0xaa, 0, 0x20, 0x05] 8
      [0, 0, 0, 0, 0, 0, 0, 0]).1 = sizeof_a2dp_ldac_t ∧
    (a2dp_ldac_t.of_bytes spec_headers
      (codec_select_config spec_headers 0 [0x2d, 0x01, 0, 0, 0xaa, 0, 0x20, 0x05] 8
        [0, 0, 0, 0, 0, 0, 0, 0]).2).channel_mode
      = spec_headers.LDACBT_CHANNEL_MODE_STEREO :=
  ⟨by decide,
    (select_config_channel_ladder spec_headers (by decide) 0
      [0x2d, 0x01, 0, 0, 0xaa, 0, 0x20, 0x05] 8 [0, 0, 0, 0, 0, 0, 0, 0]
      (by decide) (by decide) (by decide)).1 (by decide)⟩

/-- C6: for every input whose length is smaller than the structure size (8 bytes)
`codec_select_config` returns `-EINVAL`, whatever the bytes are, and leaves `config`
as it was; for every input of at least that size it does not return `-EINVAL`. -/
theorem select_config_short_input (K : Headers) (flags : Nat) (caps : List Nat)
    (caps_size : Nat) (config : List Nat) :
    (caps_size < 8 →
      codec_select_config K flags caps caps_size config = (-EINVAL, config)) ∧
    (8 ≤ caps_size →
      (codec_select_config K flags caps caps_size config).1 ≠ -EINVAL) := by
  constructor
  · intro h
    simp [codec_select_config, sizeof_a2dp_ldac_t, h]
  · intro h
    unfold codec_select_config
    rw [if_neg (by simpa [sizeof_a2dp_ldac_t] using h)]
    simp only
    have hne : (-ENOTSUP : Int) ≠ -EINVAL := by decide
    have hne2 : ((sizeof_a2dp_ldac_t : Nat) : Int) ≠ -EINVAL := by decide
    split
    · exact hne
    · split
      · exact hne
      · exact hne2

/-- C6 at concrete inputs: seven bytes are refused with `-EINVAL` and `config` is
untouched, although the same bytes with one more are accepted. -/
theorem select_config_short_input_witness :
    codec_select_config spec_headers 0 [0x2d, 0x01, 0, 0, 0xaa, 0, 0x20] 7
      [9, 9, 9, 9, 9, 9, 9, 9] = (-EINVAL, [9, 9, 9, 9, 9, 9, 9, 9]) ∧
    (codec_select_config spec_headers 0 [0x2d, 0x01, 0, 0, 0xaa, 0, 0x20, 0x04] 8
      [9, 9, 9, 9, 9, 9, 9, 9]).1 ≠ -EINVAL :=
  ⟨(select_config_short_input spec_headers 0 [0x2d, 0x01, 0, 0, 0xaa, 0, 0x20] 7
      [9, 9, 9, 9, 9, 9, 9, 9]).1 (by decide),
    (select_config_short_input spec_headers 0 [0x2d, 0x01, 0, 0, 0xaa, 0, 0x20, 0x04] 8
      [9, 9, 9, 9, 9, 9, 9, 9]).2 (by decide)⟩

/-! ## The packet-capacity query -/

theorem size_of_int_pos {i : Int} (h0 : 0 < i) (h1 : i < 2 ^ 31) :
    size_of_int i = i.toNat ∧ 0 < i.toNat := by
  unfold size_of_int SIZE_BITS
  rw [Int.emod_eq_of_lt (by omega) (by omega)]
  omega

theorem int_of_size_small {n : Nat} (h : n < 2 ^ 31) : int_of_size n = (n : Int) := by
  unfold int_of_size INT_BITS
  have hmod : n % 2 ^ 32 = n := Nat.mod_eq_of_lt (by omega)
  rw [hmod, if_pos (by simpa using h)]

theorem size_sub_of_le {a b : Nat} (hb : b ≤ a) (ha : a < 2 ^ 64) : size_sub a b = a - b := by
  unfold size_sub SIZE_BITS
  have hbm : b % 2 ^ 64 = b := Nat.mod_eq_of_lt (by omega)
  rw [hbm]
  omega

theorem size_sub_of_lt {a b : Nat} (hb : a < b) (hb2 : b < 2 ^ 64) :
    size_sub a b = a + 2 ^ 64 - b := by
  unfold size_sub SIZE_BITS
  have hbm : b % 2 ^ 64 = b := Nat.mod_eq_of_lt hb2
  rw [hbm]
  omega

/-- With a positive frame length the division is defined and the call returns the
quotient capped at 15, after storing the MTU converted to `int`. -/
theorem get_num_blocks_eq (this : impl) (mtu : Nat) (h0 : 0 < this.frame_length)
    (h1 : this.frame_length < 2 ^ 31) :
    codec_get_num_blocks this mtu =
      some (((min 15 (size_sub mtu 13 / this.frame_length.toNat) : Nat) : Int),
        { this with mtu := int_of_size mtu }) := by
  obtain ⟨hconv, hpos⟩ := size_of_int_pos h0 h1
  unfold codec_get_num_blocks
  rw [if_neg (by omega)]
  simp only [hconv, sizeof_rtp_header, sizeof_rtp_payload, Nat.reduceAdd, gt_iff_lt]
  have hmin : (if 15 < size_sub mtu 13 / this.frame_length.toNat then 15
      else size_sub mtu 13 / this.frame_length.toNat)
      = min 15 (size_sub mtu 13 / this.frame_length.toNat) := by
    split <;> omega
  rw [hmin, int_of_size_small (by omega)]

/-- Below the header size the subtraction wraps and the quotient exceeds 15. -/
theorem wrapped_quotient_large (mtu d : Nat) (hm : mtu < 13) (hd0 : 0 < d)
    (hd : d < 2 ^ 31) : min 15 (size_sub mtu 13 / d) = 15 := by
  rw [size_sub_of_lt hm (by omega)]
  have h16 : 16 ≤ (mtu + 2 ^ 64 - 13) / d := by
    rw [Nat.le_div_iff_mul_le hd0]
    omega
  omega

/-- C7 (the code departs from the claim): for every session with a positive frame
length and every MTU below the 13-byte header size, `codec_get_num_blocks` returns
15, and 15 frames do not fit: `13 + 15 * frame_length` exceeds the MTU. It does not
return 0. -/
theorem get_num_blocks_below_header (this : impl) (mtu : Nat)
    (h0 : 0 < this.frame_length) (h1 : this.frame_length < 2 ^ 31) (hm : mtu < 13) :
    codec_get_num_blocks this mtu = some (15, { this with mtu := (mtu : Int) }) ∧
    ¬ ((sizeof_rtp_header + sizeof_rtp_payload : Nat) + 15 * this.frame_length
        ≤ (mtu : Int)) := by
  obtain ⟨-, hpos⟩ := size_of_int_pos h0 h1
  constructor
  · rw [get_num_blocks_eq this mtu h0 h1,
      wrapped_quotient_large mtu _ hm hpos (by omega), int_of_size_small (by omega)]
    rfl
  · simp only [sizeof_rtp_header, sizeof_rtp_payload]
    omega

/-- C7 at a concrete input: with frame length 220 and MTU 0 the call returns 15. -/
theorem get_num_blocks_below_header_witness :
    codec_get_num_blocks sq_session 0 = some (15, { sq_session with mtu := 0 }) ∧
    ¬ ((sizeof_rtp_header + sizeof_rtp_payload : Nat) + 15 * sq_session.frame_length
        ≤ ((0 : Nat) : Int)) :=
  get_num_blocks_below_header sq_session 0 (by decide) (by decide) (by decide)

/-- From the header size upwards (and within `int`) nothing wraps: the call returns
the quotient of `mtu - 13` by the frame length, capped at 15. -/
theorem get_num_blocks_from_header (this : impl) (mtu : Nat)
    (h0 : 0 < this.frame_length) (h1 : this.frame_length < 2 ^ 31)
    (hm : sizeof_rtp_header + sizeof_rtp_payload ≤ mtu) (hint : mtu < 2 ^ 31) :
    codec_get_num_blocks this mtu =
      some (((min 15 ((mtu - (sizeof_rtp_header + sizeof_rtp_payload))
          / this.frame_length.toNat) : Nat) : Int),
        { this with mtu := (mtu : Int) }) := by
  simp only [sizeof_rtp_header, sizeof_rtp_payload, Nat.reduceAdd] at hm ⊢
  rw [get_num_blocks_eq this mtu h0 h1, size_sub_of_le hm (by omega),
    int_of_size_small hint]

/-- C8 (the code departs from the claim): the count is not monotone in the MTU. For
every session with a positive frame length, an MTU `m1` below the 13-byte header
size gets a strictly larger count (15) than any MTU `m2` from the header size up to
`13 + 15 * frame_length` exclusive, although `m1 < m2`. -/
theorem get_num_blocks_not_monotone (this : impl) (m1 m2 : Nat)
    (h0 : 0 < this.frame_length) (h1 : this.frame_length < 2 ^ 31)
    (hm1 : m1 < 13) (hm2 : 13 ≤ m2) (hint : m2 < 2 ^ 31)
    (hsmall : (m2 : Int) < 13 + 15 * this.frame_length) :
    ∃ n1 n2 s1 s2, codec_get_num_blocks this m1 = some (n1, s1) ∧
      codec_get_num_blocks this m2 = some (n2, s2) ∧ m1 ≤ m2 ∧ n2 < n1 := by
  obtain ⟨-, hpos⟩ := size_of_int_pos h0 h1
  refine ⟨_, _, _, _, get_num_blocks_eq this m1 h0 h1,
    get_num_blocks_from_header this m2 h0 h1 hm2 hint, by omega, ?_⟩
  rw [wrapped_quotient_large m1 _ hm1 hpos (by omega)]
  have hq : (m2 - (sizeof_rtp_header + sizeof_rtp_payload)) / this.frame_length.toNat
      < 15 := by
    rw [Nat.div_lt_iff_lt_mul hpos]
    simp only [sizeof_rtp_header, sizeof_rtp_payload]
    omega
  omega

/-- C8 at a concrete input: with frame length 220 the MTU 0 gives 15 blocks and the
larger MTU 13 gives 0. -/
theorem get_num_blocks_not_monotone_witness :
    codec_get_num_blocks sq_session 0 = some (15, { sq_session with mtu := 0 }) ∧
    codec_get_num_blocks sq_session 13 = some (0, { sq_session with mtu := 13 }) ∧
    ∃ n1 n2 s1 s2, codec_get_num_blocks sq_session 0 = some (n1, s1) ∧
      codec_get_num_blocks sq_session 13 = some (n2, s2) ∧ 0 ≤ 13 ∧ n2 < n1 :=
  ⟨by decide, by decide,
    get_num_blocks_not_monotone sq_session 0 13 (by decide) (by decide) (by decide)
      (by decide) (by decide) (by decide)⟩

/-- C9, as the code has it: for every session with a positive frame length and every
`size_t` MTU of at least the 13-byte header size, `codec_get_num_blocks` returns
`min(15, floor((mtu - 13) / frame_length))` and the session after the call is the
session before it with the `mtu` field set to the given MTU converted to `int`, every
other field unchanged; the value stored is the given MTU itself whenever the MTU is
at most `INT_MAX`. -/
theorem get_num_blocks_spec (this : impl) (mtu : Nat)
    (h0 : 0 < this.frame_length) (h1 : this.frame_length < 2 ^ 31)
    (hm : 13 ≤ mtu) (hsize : mtu < 2 ^ 64) :
    codec_get_num_blocks this mtu =
      some (((min 15 ((mtu - 13) / this.frame_length.toNat) : Nat) : Int),
        { this with mtu := int_of_size mtu }) ∧
    (mtu ≤ 2147483647 → int_of_size mtu = (mtu : Int)) := by
  constructor
  · rw [get_num_blocks_eq this mtu h0 h1, size_sub_of_le hm hsize]
  · intro hint
    exact int_of_size_small (by omega)

/-- C9 at concrete inputs: frame length 220 and MTU 679 give 3 blocks and store 679;
the MTU `2 ^ 32 + 1000`, above `INT_MAX`, still gives the count of the formula (15)
with every field but `mtu` as before. -/
theorem get_num_blocks_spec_witness :
    codec_get_num_blocks sq_session 679
      = some (3, { sq_session with mtu := int_of_size 679 }) ∧
    int_of_size 679 = ((679 : Nat) : Int) ∧
    codec_get_num_blocks sq_session 4294968296
      = some (15, { sq_session with mtu := int_of_size 4294968296 }) :=
  ⟨(get_num_blocks_spec sq_session 679 (by decide) (by decide) (by decide) (by decide)).1,
    (get_num_blocks_spec sq_session 679 (by decide) (by decide) (by decide) (by decide)).2
      (by decide),
    (get_num_blocks_spec sq_session 4294968296 (by decide) (by decide) (by decide)
      (by decide)).1⟩

/-- C9 as stated fails for an MTU above `INT_MAX`: with frame length 220 and MTU
`2 ^ 31` the call returns 15 but the `int` field `mtu` holds `-2 ^ 31`, not the
given MTU. -/
theorem get_num_blocks_mtu_truncated :
    codec_get_num_blocks sq_session 2147483648
      = some (15, { sq_session with mtu := -2147483648 }) ∧
    ({ sq_session with mtu := -2147483648 } : impl).mtu ≠ ((2147483648 : Nat) : Int) := by
  constructor
  · decide
  · decide

/-- C10: for every session with a positive frame length and every MTU,
`codec_get_num_blocks` returns, and the value it returns lies between 0 and 15
inclusive. -/
theorem get_num_blocks_range (this : impl) (mtu : Nat)
    (h0 : 0 < this.frame_length) (h1 : this.frame_length < 2 ^ 31) :
    ∃ n s, codec_get_num_blocks this mtu = some (n, s) ∧ 0 ≤ n ∧ n ≤ 15 := by
  refine ⟨_, _, get_num_blocks_eq this mtu h0 h1, ?_, ?_⟩
  · exact Int.natCast_nonneg _
  · have h := Nat.min_le_left 15 (size_sub mtu 13 / this.frame_length.toNat)
    omega

/-- C10 at concrete inputs: with frame length 220 the MTUs 0 and `2 ^ 64 - 1` both
give a count in the range (15 in both cases). -/
theorem get_num_blocks_range_witness :
    (∃ n s, codec_get_num_blocks sq_session 0 = some (n, s) ∧ 0 ≤ n ∧ n ≤ 15) ∧
    (∃ n s, codec_get_num_blocks sq_session 18446744073709551615 = some (n, s) ∧
      0 ≤ n ∧ n ≤ 15) :=
  ⟨get_num_blocks_range sq_session 0 (by decide) (by decide),
    get_num_blocks_range sq_session 18446744073709551615 (by decide) (by decide)⟩

/-! ## Session construction -/

/-- With distinct rate constants the `switch` on the sample-rate field follows the
rate table. -/
theorem init_frequency_table (K : Headers) (hK : K.Valid) (conf : a2dp_ldac_t)
    (r hz spb : Nat) (hr : (r, hz, spb) ∈ spec_rate_table K) (hf : conf.frequency = r) :
    init_frequency K conf = some (hz, (spb : Int)) := by
  obtain ⟨-, hnd, -⟩ := hK
  simp only [Headers.rates, List.nodup_cons, List.mem_cons, List.mem_singleton,
    List.not_mem_nil, or_false, not_or, List.nodup_nil, and_true, not_false_eq_true] at hnd
  obtain ⟨⟨n12, n13, n14, n15, n16⟩, ⟨n23, n24, n25, n26⟩, ⟨n34, n35, n36⟩,
    ⟨n45, n46⟩, n56⟩ := hnd
  simp only [spec_rate_table, List.mem_cons, List.mem_singleton, List.not_mem_nil,
    or_false, Prod.mk.injEq] at hr
  rcases hr with h | h | h | h | h | h <;> obtain ⟨hr1, hr2, hr3⟩ := h <;>
    subst hr1 hr2 hr3 <;>
  simp [init_frequency, hf, Ne.symm n12, Ne.symm n13, Ne.symm n14, Ne.symm n15, Ne.symm n16,
    Ne.symm n23, Ne.symm n24, Ne.symm n25, Ne.symm n26, Ne.symm n34, Ne.symm n35,
    Ne.symm n36, Ne.symm n45, Ne.symm n46, Ne.symm n56]

/-- With distinct mode constants the `switch` on the channel-mode field follows the
channel table. -/
theorem init_channels_table (K : Headers) (hK : K.Valid) (conf : a2dp_ldac_t)
    (m ch : Nat) (hm : (m, ch) ∈ spec_mode_table K) (hc : conf.channel_mode = m) :
    init_channels K conf = some ch := by
  obtain ⟨-, -, -, hnd, -⟩ := hK
  simp only [Headers.modes, List.nodup_cons, List.mem_cons, List.mem_singleton,
    List.not_mem_nil, or_false, not_or, List.nodup_nil, and_true, not_false_eq_true] at hnd
  obtain ⟨⟨n12, n13⟩, n23⟩ := hnd
  simp only [spec_mode_table, List.mem_cons, List.mem_singleton, List.not_mem_nil,
    or_false, Prod.mk.injEq] at hm
  rcases hm with h | h | h <;> obtain ⟨hm1, hm2⟩ := h <;> subst hm1 hm2 <;>
  simp [init_channels, hc, Ne.symm n12, Ne.symm n13, Ne.symm n23]

/-- The `default` case of the sample-rate `switch` is taken exactly for a field that is
none of the six rate constants. -/
theorem init_frequency_eq_none (K : Headers) (conf : a2dp_ldac_t) :
    init_frequency K conf = none ↔ conf.frequency ∉ K.rates := by
  simp only [init_frequency, Headers.rates, List.mem_cons, List.mem_singleton,
    List.not_mem_nil, or_false, not_or]
  constructor
  · intro h
    split_ifs at h
    tauto
  · rintro ⟨h1, h2, h3, h4, h5, h6⟩
    simp [h1, h2, h3, h4, h5, h6]

/-- The `default` case of the channel-mode `switch` is taken exactly for a field that
is none of the three mode constants. -/
theorem init_channels_eq_none (K : Headers) (conf : a2dp_ldac_t) :
    init_channels K conf = none ↔ conf.channel_mode ∉ K.modes := by
  simp only [init_channels, Headers.modes, List.mem_cons, List.mem_singleton,
    List.not_mem_nil, or_false, not_or]
  constructor
  · intro h
    split_ifs at h
    tauto
  · rintro ⟨h1, h2, h3⟩
    simp [h1, h2, h3]

/-- The quality tier set by `codec_init` selects the 220-byte frame length. -/
theorem init_frame_length_sq (C : EngineConsts) (hC : C.Valid) :
    init_frame_length C C.LDACBT_EQMID_SQ = some 220 := by
  obtain ⟨h1, -⟩ := hC
  simp [init_frame_length, Ne.symm h1]

/-- On a configuration whose two fields are a rate constant and a mode constant, and
with the allocation and the handle acquisition successful, `codec_init` reaches the
engine's configure operation; its outcome is decided by the sign of the status. -/
theorem codec_init_recognised (K : Headers) (hK : K.Valid) (C : EngineConsts)
    (hC : C.Valid) (E : init_env) (flags : Nat) (config : List Nat) (config_len : Nat)
    (info : spa_audio_info) (halloc : E.calloc ≠ 0) (hhandle : E.get_handle ≠ 0)
    (r hz spb m ch : Nat) (hr : (r, hz, spb) ∈ spec_rate_table K)
    (hm : (m, ch) ∈ spec_mode_table K)
    (hfreq : (a2dp_ldac_t.of_bytes K config).frequency = r)
    (hmode : (a2dp_ldac_t.of_bytes K config).channel_mode = m) :
    codec_init K C E flags config config_len info =
      if E.init_handle_encode E.get_handle 0 C.LDACBT_EQMID_SQ (m : Int)
          C.LDACBT_SMPL_FMT_S16 (hz : Int) < 0 then
        some { ret := none
               info := configured_info C hz ch
               errno := -E.init_handle_encode E.get_handle 0 C.LDACBT_EQMID_SQ (m : Int)
                 C.LDACBT_SMPL_FMT_S16 (hz : Int)
               calls := [engine_call.get_handle,
                 engine_call.init_handle_encode E.get_handle 0 C.LDACBT_EQMID_SQ (m : Int)
                   C.LDACBT_SMPL_FMT_S16 (hz : Int),
                 engine_call.free_handle E.get_handle] }
      else
        some { ret := some { configured_session C E hz spb m with
                 codesize := (spb : Int) * (ch : Int) * 2 }
               info := configured_info C hz ch
               errno := E.errno
               calls := [engine_call.get_handle,
                 engine_call.init_handle_encode E.get_handle 0 C.LDACBT_EQMID_SQ (m : Int)
                   C.LDACBT_SMPL_FMT_S16 (hz : Int)] } := by
  have h1 := init_frequency_table K hK _ r hz spb hr hfreq
  have h2 := init_channels_table K hK _ m ch hm hmode
  have h3 := init_frame_length_sq C hC
  unfold codec_init
  simp only [halloc, hhandle, if_false, h1, h2, h3, hmode]
  by_cases hres : E.init_handle_encode E.get_handle 0 C.LDACBT_EQMID_SQ (m : Int)
      C.LDACBT_SMPL_FMT_S16 (hz : Int) < 0
  · simp [init_error, hhandle, configured_info, impl.zero, hres]
  · simp [configured_info, configured_session, impl.zero, hres]

/-- C12: for each of the six rate constants and each of the three mode constants, a
`codec_init` on that configuration for which the allocation, the handle acquisition
and the engine configuration succeed returns a session whose `codec_get_block_size`
is samples per block times channel count times 2, and the audio description it
reports carries the rate in Hz, the channel count and the 16-bit signed format. -/
theorem init_block_size (K : Headers) (hK : K.Valid) (C : EngineConsts)
    (hC : C.Valid) (E : init_env) (flags : Nat) (config : List Nat) (config_len : Nat)
    (info : spa_audio_info) (halloc : E.calloc ≠ 0) (hhandle : E.get_handle ≠ 0)
    (r hz spb m ch : Nat) (hr : (r, hz, spb) ∈ spec_rate_table K)
    (hm : (m, ch) ∈ spec_mode_table K)
    (hfreq : (a2dp_ldac_t.of_bytes K config).frequency = r)
    (hmode : (a2dp_ldac_t.of_bytes K config).channel_mode = m)
    (haccept : 0 ≤ E.init_handle_encode E.get_handle 0 C.LDACBT_EQMID_SQ (m : Int)
      C.LDACBT_SMPL_FMT_S16 (hz : Int)) :
    ∃ s res, codec_init K C E flags config config_len info = some res ∧
      res.ret = some s ∧
      codec_get_block_size s = ((spb * ch * 2 : Nat) : Int) ∧
      res.info.rate = hz ∧ res.info.channels = ch ∧
      res.info.format = C.SPA_AUDIO_FORMAT_S16 := by
  rw [codec_init_recognised K hK C hC E flags config config_len info halloc hhandle
    r hz spb m ch hr hm hfreq hmode, if_neg (not_lt.mpr haccept)]
  refine ⟨_, _, rfl, rfl, ?_, rfl, rfl, rfl⟩
  simp [codec_get_block_size]

/-- C12 at the two examples of the claim: 48000 Hz stereo gives a block size of 512
and 192000 Hz mono gives 1024. -/
theorem init_block_size_witness :
    (∃ s res, codec_init spec_headers spec_engine ok_env 0
        [0x2d, 0x01, 0, 0, 0xaa, 0, 0x02, 0x04] 8 spa_audio_info.zero = some res ∧
      res.ret = some s ∧ codec_get_block_size s = ((128 * 2 * 2 : Nat) : Int) ∧
      res.info.rate = 48000 ∧ res.info.channels = 2 ∧
      res.info.format = spec_engine.SPA_AUDIO_FORMAT_S16) ∧
    (∃ s res, codec_init spec_headers spec_engine ok_env 0
        [0x2d, 0x01, 0, 0, 0xaa, 0, 0x20, 0x01] 8 spa_audio_info.zero = some res ∧
      res.ret = some s ∧ codec_get_block_size s = ((512 * 1 * 2 : Nat) : Int) ∧
      res.info.rate = 192000 ∧ res.info.channels = 1 ∧
      res.info.format = spec_engine.SPA_AUDIO_FORMAT_S16) :=
  ⟨init_block_size spec_headers (by decide) spec_engine (by decide) ok_env 0
      [0x2d, 0x01, 0, 0, 0xaa, 0, 0x02, 0x04] 8 spa_audio_info.zero (by decide) (by decide)
      0x02 48000 128 0x04 2 (by decide) (by decide) (by decide) (by decide) (by decide),
    init_block_size spec_headers (by decide) spec_engine (by decide) ok_env 0
      [0x2d, 0x01, 0, 0, 0xaa, 0, 0x20, 0x01] 8 spa_audio_info.zero (by decide) (by decide)
      0x20 192000 512 0x01 1 (by decide) (by decide) (by decide) (by decide) (by decide)⟩

/-- C16: for every `codec_init` call that acquires the engine handle, the call
returns; the handle is acquired once; if no session is returned the handle has been
released exactly once by `codec_init`; if a session is returned its handle is the
acquired one, it is not `NULL`, `codec_init` has not released it and a following
`codec_deinit` releases it exactly once. Over `codec_init`, plus `codec_deinit`
exactly when a session was returned, releases and acquisitions are equal in number. -/
theorem init_handle_balance (K : Headers) (C : EngineConsts) (E : init_env)
    (flags : Nat) (config : List Nat) (config_len : Nat) (info : spa_audio_info)
    (halloc : E.calloc ≠ 0) (hhandle : E.get_handle ≠ 0) :
    ∃ res, codec_init K C E flags config config_len info = some res ∧
      acquisitions res.calls = 1 ∧
      (res.ret = none → released res.calls = [E.get_handle]) ∧
      (∀ s, res.ret = some s →
        s.ldac = E.get_handle ∧ s.ldac ≠ 0 ∧ released res.calls = [] ∧
        released (codec_deinit s) = [E.get_handle] ∧
        acquisitions (codec_deinit s) = 0) ∧
      (released (res.calls ++
          match res.ret with
          | some s => codec_deinit s
          | none => [])).length
        = acquisitions (res.calls ++
          match res.ret with
          | some s => codec_deinit s
          | none => []) := by
  unfold codec_init
  simp only [halloc, hhandle, if_false]
  split
  · exact ⟨_, rfl, by simp [init_error, hhandle, acquisitions, released]⟩
  · split
    · exact ⟨_, rfl, by simp [init_error, hhandle, acquisitions, released]⟩
    · split
      · exact ⟨_, rfl, by simp [init_error, hhandle, acquisitions, released]⟩
      · split
        · exact ⟨_, rfl, by simp [init_error, hhandle, acquisitions, released]⟩
        · exact ⟨_, rfl, by simp [hhandle, acquisitions, released, codec_deinit]⟩

/-- C16 at concrete inputs: an unrecognised rate field, an engine rejection and a
successful construction each end with as many releases as acquisitions. -/
theorem init_handle_balance_witness :
    (∃ res, codec_init spec_headers spec_engine ok_env 0
        [0x2d, 0x01, 0, 0, 0xaa, 0, 0x03, 0x04] 8 spa_audio_info.zero = some res ∧
      res.ret = none ∧ released res.calls = [7]) ∧
    (∃ res, codec_init spec_headers spec_engine rejecting_env 0
        [0x2d, 0x01, 0, 0, 0xaa, 0, 0x02, 0x04] 8 spa_audio_info.zero = some res ∧
      res.ret = none ∧ released res.calls = [7]) ∧
    (∃ res, codec_init spec_headers spec_engine ok_env 0
        [0x2d, 0x01, 0, 0, 0xaa, 0, 0x02, 0x04] 8 spa_audio_info.zero = some res ∧
      acquisitions res.calls = 1 ∧
      (res.ret = none → released res.calls = [ok_env.get_handle]) ∧
      (∀ s, res.ret = some s →
        s.ldac = ok_env.get_handle ∧ s.ldac ≠ 0 ∧ released res.calls = [] ∧
        released (codec_deinit s) = [ok_env.get_handle] ∧
        acquisitions (codec_deinit s) = 0) ∧
      (released (res.calls ++
          match res.ret with
          | some s => codec_deinit s
          | none => [])).length
        = acquisitions (res.calls ++
          match res.ret with
          | some s => codec_deinit s
          | none => [])) :=
  ⟨⟨_, rfl, rfl, rfl⟩, ⟨_, rfl, rfl, rfl⟩,
    init_handle_balance spec_headers spec_engine ok_env 0
      [0x2d, 0x01, 0, 0, 0xaa, 0, 0x02, 0x04] 8 spa_audio_info.zero (by decide) (by decide)⟩

/-- C17: for every session, `codec_reduce_bitpool` makes one engine call, a priority
change toward connection on the session's handle, and `codec_increase_bitpool` one
engine call, a priority change toward quality; each returns the status the engine
gave for that call; neither changes the session, so `codec_get_block_size` and
`codec_get_num_blocks` answer as before. -/
theorem bitpool_hooks (C : EngineConsts) (alter : Nat → Int → Int) (this : impl) :
    (codec_reduce_bitpool C alter this).1
        = alter this.ldac C.LDACBT_EQMID_INC_CONNECTION ∧
    (codec_reduce_bitpool C alter this).2.2
        = [engine_call.alter_eqmid_priority this.ldac C.LDACBT_EQMID_INC_CONNECTION] ∧
    (codec_reduce_bitpool C alter this).2.1 = this ∧
    (codec_increase_bitpool C alter this).1
        = alter this.ldac C.LDACBT_EQMID_INC_QUALITY ∧
    (codec_increase_bitpool C alter this).2.2
        = [engine_call.alter_eqmid_priority this.ldac C.LDACBT_EQMID_INC_QUALITY] ∧
    (codec_increase_bitpool C alter this).2.1 = this ∧
    codec_get_block_size (codec_reduce_bitpool C alter this).2.1
        = codec_get_block_size this ∧
    codec_get_block_size (codec_increase_bitpool C alter this).2.1
        = codec_get_block_size this ∧
    (∀ mtu, codec_get_num_blocks (codec_reduce_bitpool C alter this).2.1 mtu
        = codec_get_num_blocks this mtu) ∧
    (∀ mtu, codec_get_num_blocks (codec_increase_bitpool C alter this).2.1 mtu
        = codec_get_num_blocks this mtu) :=
  ⟨rfl, rfl, rfl, rfl, rfl, rfl, rfl, rfl, fun _ => rfl, fun _ => rfl⟩

/-- C20: for every configuration whose sample-rate field is none of the six rate
constants or whose channel-mode field is none of the three mode constants,
`codec_init` returns no session and makes no configure call to the engine; it does
return whenever the allocation of the session succeeded. -/
theorem init_rejects_unselected (K : Headers) (C : EngineConsts) (E : init_env)
    (flags : Nat) (config : List Nat) (config_len : Nat) (info : spa_audio_info)
    (hbad : (a2dp_ldac_t.of_bytes K config).frequency ∉ K.rates ∨
      (a2dp_ldac_t.of_bytes K config).channel_mode ∉ K.modes) :
    (∀ res, codec_init K C E flags config config_len info = some res →
      res.ret = none ∧ configurations res.calls = 0) ∧
    (E.calloc ≠ 0 → ∃ res, codec_init K C E flags config config_len info = some res ∧
      res.ret = none ∧ configurations res.calls = 0) := by
  have key : E.calloc ≠ 0 → ∃ res, codec_init K C E flags config config_len info
      = some res ∧ res.ret = none ∧ configurations res.calls = 0 := by
    intro halloc
    unfold codec_init
    simp only [halloc, if_false]
    split
    · refine ⟨_, rfl, ?_⟩
      simp only [init_error]
      split <;> simp [configurations]
    · cases hf : init_frequency K (a2dp_ldac_t.of_bytes K config) with
      | none =>
        refine ⟨_, rfl, ?_⟩
        simp only [init_error]
        split <;> simp [configurations]
      | some p =>
        have hfin : (a2dp_ldac_t.of_bytes K config).frequency ∈ K.rates := by
          by_contra hnot
          rw [(init_frequency_eq_none K _).mpr hnot] at hf
          cases hf
        have hcn : init_channels K (a2dp_ldac_t.of_bytes K config) = none :=
          (init_channels_eq_none K _).mpr (hbad.resolve_left (not_not.mpr hfin))
        simp only [hcn]
        refine ⟨_, rfl, ?_⟩
        simp only [init_error]
        split <;> simp [configurations]
  refine ⟨?_, key⟩
  intro res hres
  by_cases halloc : E.calloc = 0
  · simp [codec_init, halloc] at hres
  · obtain ⟨res2, h2, hret, hconf⟩ := key halloc
    rw [h2] at hres
    cases hres
    exact ⟨hret, hconf⟩

/-- C20 at concrete inputs: a rate field with two bits set, and a mode field with an
undefined bit, are both refused without a configure call. -/
theorem init_rejects_unselected_witness :
    (∃ res, codec_init spec_headers spec_engine ok_env 0
        [0x2d, 0x01, 0, 0, 0xaa, 0, 0x03, 0x04] 8 spa_audio_info.zero = some res ∧
      res.ret = none ∧ configurations res.calls = 0) ∧
    (∃ res, codec_init spec_headers spec_engine ok_env 0
        [0x2d, 0x01, 0, 0, 0xaa, 0, 0x20, 0x08] 8 spa_audio_info.zero = some res ∧
      res.ret = none ∧ configurations res.calls = 0) :=
  ⟨(init_rejects_unselected spec_headers spec_engine ok_env 0
      [0x2d, 0x01, 0, 0, 0xaa, 0, 0x03, 0x04] 8 spa_audio_info.zero
      (Or.inl (by decide))).2 (by decide),
    (init_rejects_unselected spec_headers spec_engine ok_env 0
      [0x2d, 0x01, 0, 0, 0xaa, 0, 0x20, 0x08] 8 spa_audio_info.zero
      (Or.inr (by decide))).2 (by decide)⟩

/-! ## The descriptor written by `codec_fill_caps` and by a successful negotiation -/

theorem le_value_le_bytes_4 (x : Nat) (h : x < 2 ^ 32) : le_value (le_bytes 4 x) = x := by
  simp only [le_bytes, le_value]
  omega

theorem le_value_le_bytes_2 (x : Nat) (h : x < 2 ^ 16) : le_value (le_bytes 2 x) = x := by
  simp only [le_bytes, le_value]
  omega

/-- Reading back an `a2dp_ldac_t` whose members fit their fields from the buffer that
`memcpy` copied it to gives the same object. -/
theorem of_bytes_memcpy_eq (K : Headers) (conf : a2dp_ldac_t) (config : List Nat)
    (hv : conf.info.vendor_id < 2 ^ 32) (hc : conf.info.codec_id < 2 ^ 16)
    (hf : conf.frequency < 256) (hm : conf.channel_mode < 256) :
    a2dp_ldac_t.of_bytes K (memcpy config (conf.bytes K) sizeof_a2dp_ldac_t) = conf := by
  have h4 := le_value_le_bytes_4 _ hv
  have h2 := le_value_le_bytes_2 _ hc
  simp only [le_bytes] at h4 h2
  obtain ⟨⟨v, c⟩, f, m⟩ := conf
  simp only at hv hc hf hm h4 h2
  cases hb : K.big_endian <;>
    simp [a2dp_ldac_t.of_bytes, memcpy, a2dp_ldac_t.bytes, field_bytes, field_value, le_bytes,
      hb, sizeof_a2dp_ldac_t, u8, h4, h2, Nat.mod_eq_of_lt hf, Nat.mod_eq_of_lt hm]

theorem or_lt_256 {a b : Nat} (ha : a < 256) (hb : b < 256) : a ||| b < 256 :=
  Nat.or_lt_two_pow (n := 8) ha hb

/-- C18: for every value of `flags` and every prior content of the buffer,
`codec_fill_caps` returns the structure size 8 and the descriptor it has written has
the adapter's vendor and codec identifiers, a sample-rate mask equal to the OR of the
six rate constants and a channel-mode mask equal to the OR of the three mode
constants; the bytes after the descriptor are unchanged. -/
theorem fill_caps_descriptor (K : Headers) (hK : K.Valid) (flags : Nat) (buf : List Nat) :
    (codec_fill_caps K flags buf).1 = 8 ∧
    a2dp_ldac_t.of_bytes K (codec_fill_caps K flags buf).2 =
      { info := { vendor_id := K.LDAC_VENDOR_ID, codec_id := K.LDAC_CODEC_ID }
        frequency := K.LDACBT_SAMPLING_FREQ_044100 ||| K.LDACBT_SAMPLING_FREQ_048000 |||
          K.LDACBT_SAMPLING_FREQ_088200 ||| K.LDACBT_SAMPLING_FREQ_096000 |||
          K.LDACBT_SAMPLING_FREQ_176400 ||| K.LDACBT_SAMPLING_FREQ_192000
        channel_mode := K.LDACBT_CHANNEL_MODE_MONO ||| K.LDACBT_CHANNEL_MODE_DUAL_CHANNEL |||
          K.LDACBT_CHANNEL_MODE_STEREO } ∧
    (codec_fill_caps K flags buf).2.drop 8 = buf.drop 8 := by
  obtain ⟨hs, -, hms, -, hv, hc⟩ := hK
  simp only [Headers.rates, Headers.modes, List.mem_cons, List.mem_singleton,
    List.not_mem_nil, or_false, forall_eq_or_imp, forall_eq] at hs hms
  obtain ⟨s1, s2, s3, s4, s5, s6⟩ := hs
  obtain ⟨m1, m2, m3⟩ := hms
  refine ⟨rfl, ?_, ?_⟩
  · simp only [codec_fill_caps]
    apply of_bytes_memcpy_eq K _ buf hv hc
    · exact or_lt_256 (or_lt_256 (or_lt_256 (or_lt_256 (or_lt_256 (single_bit_lt s1)
        (single_bit_lt s2)) (single_bit_lt s3)) (single_bit_lt s4)) (single_bit_lt s5))
        (single_bit_lt s6)
    · exact or_lt_256 (or_lt_256 (single_bit_lt m3) (single_bit_lt m2)) (single_bit_lt m1)
  · simp only [codec_fill_caps, memcpy]
    have hlen := bytes_length K
      { info := { vendor_id := K.LDAC_VENDOR_ID, codec_id := K.LDAC_CODEC_ID }
        frequency := K.LDACBT_SAMPLING_FREQ_044100 ||| K.LDACBT_SAMPLING_FREQ_048000 |||
          K.LDACBT_SAMPLING_FREQ_088200 ||| K.LDACBT_SAMPLING_FREQ_096000 |||
          K.LDACBT_SAMPLING_FREQ_176400 ||| K.LDACBT_SAMPLING_FREQ_192000
        channel_mode := K.LDACBT_CHANNEL_MODE_MONO ||| K.LDACBT_CHANNEL_MODE_DUAL_CHANNEL |||
          K.LDACBT_CHANNEL_MODE_STEREO }
    rw [List.drop_append_eq_append_drop]
    simp [hlen, sizeof_a2dp_ldac_t]

/-- C18 at a concrete input: written over ten bytes of 7, the descriptor is
`2d 01 00 00 aa 00 3f 07` and the last two bytes stay 7. -/
theorem fill_caps_descriptor_witness :
    codec_fill_caps spec_headers 0 [7, 7, 7, 7, 7, 7, 7, 7, 7, 7]
      = (8, [0x2d, 0x01, 0, 0, 0xaa, 0, 0x3f, 0x07, 7, 7]) ∧
    spec_headers.Valid ∧
    a2dp_ldac_t.of_bytes spec_headers
        (codec_fill_caps spec_headers 0 [7, 7, 7, 7, 7, 7, 7, 7, 7, 7]).2 =
      { info := { vendor_id := 0x12d, codec_id := 0xaa }
        frequency := 0x01 ||| 0x02 ||| 0x04 ||| 0x08 ||| 0x10 ||| 0x20
        channel_mode := 0x01 ||| 0x02 ||| 0x04 } :=
  ⟨by decide, by decide,
    (fill_caps_descriptor spec_headers (by decide) 0 [7, 7, 7, 7, 7, 7, 7, 7, 7, 7]).2.1⟩

/-- A successful sample-rate scan found the 192000 Hz bit in the mask it was given and
selected that bit. -/
theorem select_frequency_eq_some (K : Headers) (hK : K.Valid) (conf conf1 : a2dp_ldac_t)
    (h : select_frequency K conf = some conf1) :
    conf.frequency &&& K.LDACBT_SAMPLING_FREQ_192000 ≠ 0 ∧
    conf1 = { conf with frequency := u8 K.LDACBT_SAMPLING_FREQ_192000 } := by
  by_cases hlow : ∀ c ∈ K.lower_rates, conf.frequency &&& c = 0
  · rw [select_frequency_of_no_lower K conf hlow] at h
    split at h
    · rename_i hset
      cases h
      exact ⟨hset, rfl⟩
    · cases h
  · push_neg at hlow
    obtain ⟨c, hc, hset⟩ := hlow
    rw [select_frequency_of_lower K hK conf c hc hset] at h
    cases h

/-- A successful channel-mode ladder selected a mode constant whose bit was set in
the mask it was given. -/
theorem select_channel_mode_eq_some (K : Headers) (conf conf2 : a2dp_ldac_t)
    (h : select_channel_mode K conf = some conf2) :
    ∃ m ∈ K.modes, conf.channel_mode &&& m ≠ 0 ∧
      conf2 = { conf with channel_mode := u8 m } := by
  unfold select_channel_mode at h
  split at h
  · rename_i hset
    cases h
    exact ⟨_, by simp [Headers.modes], hset, rfl⟩
  · split at h
    · rename_i hset
      cases h
      exact ⟨_, by simp [Headers.modes], hset, rfl⟩
    · split at h
      · rename_i hset
        cases h
        exact ⟨_, by simp [Headers.modes], hset, rfl⟩
      · cases h

/-- C19: every `codec_select_config` call that does not return an error returns the
structure size, and the configuration it has written has the adapter's vendor and
codec identifiers, whatever the capability buffer held in those fields, a sample-rate
field that is one rate constant (a single bit) and a channel-mode field that is one
mode constant (a single bit), and each of the two bits was set in the corresponding
mask of the capability buffer. -/
theorem select_config_success (K : Headers) (hK : K.Valid) (flags : Nat)
    (caps : List Nat) (caps_size : Nat) (config : List Nat)
    (hok : 0 ≤ (codec_select_config K flags caps caps_size config).1) :
    (codec_select_config K flags caps caps_size config).1 = sizeof_a2dp_ldac_t ∧
    (a2dp_ldac_t.of_bytes K (codec_select_config K flags caps caps_size config).2).info
      = { vendor_id := K.LDAC_VENDOR_ID, codec_id := K.LDAC_CODEC_ID } ∧
    (a2dp_ldac_t.of_bytes K
      (codec_select_config K flags caps caps_size config).2).frequency ∈ K.rates ∧
    single_bit (a2dp_ldac_t.of_bytes K
      (codec_select_config K flags caps caps_size config).2).frequency ∧
    (a2dp_ldac_t.of_bytes K caps).frequency &&&
      (a2dp_ldac_t.of_bytes K
        (codec_select_config K flags caps caps_size config).2).frequency ≠ 0 ∧
    (a2dp_ldac_t.of_bytes K
      (codec_select_config K flags caps caps_size config).2).channel_mode ∈ K.modes ∧
    single_bit (a2dp_ldac_t.of_bytes K
      (codec_select_config K flags caps caps_size config).2).channel_mode ∧
    (a2dp_ldac_t.of_bytes K caps).channel_mode &&&
      (a2dp_ldac_t.of_bytes K
        (codec_select_config K flags caps caps_size config).2).channel_mode ≠ 0 := by
  have hneg1 : ¬ (0 : Int) ≤ -EINVAL := by decide
  have hneg2 : ¬ (0 : Int) ≤ -ENOTSUP := by decide
  by_cases hsize : caps_size < sizeof_a2dp_ldac_t
  · simp only [codec_select_config, hsize, if_true] at hok
    exact absurd hok hneg1
  · have hsize2 : sizeof_a2dp_ldac_t ≤ caps_size := not_lt.mp hsize
    cases hf : select_frequency K (a2dp_ldac_t.of_bytes K caps) with
    | none =>
      rw [select_config_of_rate_fail K flags caps caps_size config hsize2 hf] at hok
      exact absurd hok hneg2
    | some conf1 =>
      obtain ⟨hset, rfl⟩ := select_frequency_eq_some K hK _ _ hf
      rw [select_config_of_rate_ok K flags caps caps_size config hsize2 _ hf] at hok ⊢
      cases hc : select_channel_mode K
          { info := { vendor_id := K.LDAC_VENDOR_ID, codec_id := K.LDAC_CODEC_ID }
            frequency := u8 K.LDACBT_SAMPLING_FREQ_192000
            channel_mode := (a2dp_ldac_t.of_bytes K caps).channel_mode } with
      | none =>
        simp only [hc] at hok
        exact absurd hok hneg2
      | some conf2 =>
        obtain ⟨m, hm, hmset, rfl⟩ := select_channel_mode_eq_some K _ _ hc
        simp only [hc]
        obtain ⟨hs, -, hms, -, hv, hcd⟩ := hK
        have s6 : single_bit K.LDACBT_SAMPLING_FREQ_192000 :=
          hs _ (by simp [Headers.rates])
        have sm : single_bit m := hms _ hm
        rw [of_bytes_memcpy_eq K _ config hv hcd
          (by simpa [u8_single_bit s6] using single_bit_lt s6)
          (by simpa [u8_single_bit sm] using single_bit_lt sm)]
        simp only [u8_single_bit s6, u8_single_bit sm]
        exact ⟨trivial, trivial, by simp [Headers.rates], s6, hset, hm, sm, hmset⟩

/-- C19 at a concrete input: a capability buffer with foreign identifiers, the 192000
Hz bit and the mode mask {stereo, mono} is answered with the structure size and the
configuration `2d 01 00 00 aa 00 20 04`. -/
theorem select_config_success_witness :
    codec_select_config spec_headers 0 [1, 2, 3, 4, 5, 6, 0x20, 0x05] 8
      [0, 0, 0, 0, 0, 0, 0, 0] = (8, [0x2d, 0x01, 0, 0, 0xaa, 0, 0x20, 0x04]) ∧
    (a2dp_ldac_t.of_bytes spec_headers
      (codec_select_config spec_headers 0 [1, 2, 3, 4, 5, 6, 0x20, 0x05] 8
        [0, 0, 0, 0, 0, 0, 0, 0]).2).info
      = { vendor_id := spec_headers.LDAC_VENDOR_ID, codec_id := spec_headers.LDAC_CODEC_ID } :=
  ⟨by decide,
    (select_config_success spec_headers (by decide) 0 [1, 2, 3, 4, 5, 6, 0x20, 0x05] 8
      [0, 0, 0, 0, 0, 0, 0, 0] (by decide)).2.1⟩

/-! ## Packet memory -/

/-- A buffer of `n` bytes at address `dst` splits the memory into the bytes before it,
the buffer and the bytes after it. -/
theorem mem_split (mem : List Nat) (dst n : Nat) (h : dst + n ≤ mem.length) :
    ∃ pre mid post, mem = pre ++ mid ++ post ∧ pre.length = dst ∧ mid.length = n := by
  refine ⟨mem.take dst, (mem.drop dst).take n, (mem.drop dst).drop n, ?_, ?_, ?_⟩
  · rw [List.append_assoc, List.take_append_drop, List.take_append_drop]
  · simp; omega
  · simp; omega

/-- Storing over a whole buffer replaces it and nothing else. -/
theorem mem_store_split (pre mid post w : List Nat) (h : w.length = mid.length) :
    mem_store (pre ++ mid ++ post) pre.length w = pre ++ w ++ post := by
  simp [mem_store, h, List.append_assoc]

/-- Storing part of a buffer: the bytes of the buffer from offset `k` on are replaced
by `w`. -/
theorem mem_store_inside (pre mid post w : List Nat) (k : Nat)
    (h : k + w.length ≤ mid.length) :
    mem_store (pre ++ mid ++ post) (pre.length + k) w
      = pre ++ (mid.take k ++ w ++ mid.drop (k + w.length)) ++ post := by
  have hk : k ≤ mid.length := by omega
  simp only [mem_store, List.append_assoc]
  rw [List.take_append, List.take_append_of_le_length hk]
  have h2 : pre.length + k + w.length = pre.length + (k + w.length) := by omega
  rw [h2, List.drop_append, List.drop_append_of_le_length h]
  simp [List.append_assoc]

/-- The byte at offset `k` of a buffer. -/
theorem mem_byte_inside (pre mid post : List Nat) (k : Nat) (h : k < mid.length) :
    mem_byte (pre ++ mid ++ post) (pre.length + k) = mid.getD k 0 := by
  simp only [mem_byte, List.append_assoc, List.getD_eq_getElem?_getD]
  rw [List.getElem?_append_right (by omega)]
  simp [List.getElem?_append_left h]

theorem mem_store_start (pre mid post w : List Nat) (h : w.length ≤ mid.length) :
    mem_store (pre ++ mid ++ post) pre.length w = pre ++ (w ++ mid.drop w.length) ++ post := by
  have h2 := mem_store_inside pre mid post w 0 (by omega)
  simpa using h2

theorem mem_byte_start (pre mid post : List Nat) (h : 0 < mid.length) :
    mem_byte (pre ++ mid ++ post) pre.length = mid.getD 0 0 := by
  have h2 := mem_byte_inside pre mid post 0 h
  simpa using h2

/-- The memory after `codec_start_encode`, in closed form. -/
theorem start_encode_closed (this : impl) (mem : List Nat) (dst dst_size seqnum timestamp : Nat)
    (hlen : dst + 13 ≤ mem.length) :
    codec_start_encode this mem dst dst_size seqnum timestamp =
      (13, { this with header := dst, payload := dst + 12 },
        mem.take dst ++
          [0x80, 0x01, seqnum / 256 % 256, seqnum % 256,
           timestamp / 256 / 256 / 256 % 256, timestamp / 256 / 256 % 256,
           timestamp / 256 % 256, timestamp % 256, 0, 0, 0, 1, 0] ++
          mem.drop (dst + 13)) := by
  obtain ⟨pre, mid, post, rfl, rfl, hmid⟩ := mem_split mem dst 13 hlen
  have b1 : bits_set 0 0 4 0 = 0 := by decide
  have b2 : bits_set 0 6 2 2 = 128 := by decide
  have b3 : bits_set 0 0 7 1 = 1 := by decide
  have e1 : be_bytes 2 seqnum = [seqnum / 256 % 256, seqnum % 256] := by
    simp [be_bytes, le_bytes]
  have e2 : be_bytes 4 timestamp = [timestamp / 256 / 256 / 256 % 256,
      timestamp / 256 / 256 % 256, timestamp / 256 % 256, timestamp % 256] := by
    simp [be_bytes, le_bytes]
  have e3 : be_bytes 4 1 = [0, 0, 0, 1] := by decide
  simp only [codec_start_encode, sizeof_rtp_header, sizeof_rtp_payload, field_store,
    rtp_header_v, rtp_header_pt, rtp_payload_frame_count, rtp_header_sequence_number,
    rtp_header_timestamp, rtp_header_ssrc, Nat.add_assoc, Nat.reduceAdd, Nat.add_zero]
  rw [mem_store_split pre mid post _ (by simp [hmid])]
  simp only [List.replicate]
  rw [mem_byte_inside _ _ _ 12 (by simp), mem_store_inside _ _ _ _ 12 (by simp)]
  simp only [List.take, List.drop, List.getD_cons_succ, List.getD_cons_zero, List.length_cons,
    List.length_nil, Nat.reduceAdd, List.cons_append, List.nil_append, List.append_nil, b1]
  rw [mem_byte_start _ _ _ (by simp), mem_store_start _ _ _ _ (by simp)]
  simp only [List.take, List.drop, List.getD_cons_succ, List.getD_cons_zero, List.length_cons,
    List.length_nil, Nat.reduceAdd, List.cons_append, List.nil_append, List.append_nil, b2]
  rw [mem_byte_inside _ _ _ 1 (by simp), mem_store_inside _ _ _ _ 1 (by simp)]
  simp only [List.take, List.drop, List.getD_cons_succ, List.getD_cons_zero, List.length_cons,
    List.length_nil, Nat.reduceAdd, List.cons_append, List.nil_append, List.append_nil, b3]
  rw [e1, mem_store_inside _ _ _ _ 2 (by simp)]
  simp only [List.take, List.drop, List.length_cons,
    List.length_nil, Nat.reduceAdd, List.cons_append, List.nil_append, List.append_nil]
  rw [e2, mem_store_inside _ _ _ _ 4 (by simp)]
  simp only [List.take, List.drop, List.length_cons,
    List.length_nil, Nat.reduceAdd, List.cons_append, List.nil_append, List.append_nil]
  rw [e3, mem_store_inside _ _ _ _ 8 (by simp)]
  simp only [List.take, List.drop, List.length_cons,
    List.length_nil, Nat.reduceAdd, List.cons_append, List.nil_append, List.append_nil]
  have h13 : pre.length + 13 = pre.length + mid.length := by omega
  simp [h13, List.append_assoc]

/-- C13: for every sequence number, every timestamp and every prior content of a
destination buffer of at least 13 bytes, `codec_start_encode` returns 13 and leaves
the buffer as follows: its first 13 bytes are the version-2, payload-type-1 header
bytes `80 01`, the sequence number in 16-bit big-endian, the timestamp in 32-bit
big-endian, the SSRC 1 in 32-bit big-endian and a zero preamble byte; read as fields,
the version is 2, the payload type 1, the padding, extension, CSRC-count and marker
fields 0, the frame count 0 and the fragmentation flags 0; the bytes before the buffer
and from offset 13 on are unchanged. -/
theorem start_encode_preamble (this : impl) (mem : List Nat)
    (dst dst_size seqnum timestamp : Nat) (hlen : dst + 13 ≤ mem.length) :
    (codec_start_encode this mem dst dst_size seqnum timestamp).1 = 13 ∧
    ((codec_start_encode this mem dst dst_size seqnum timestamp).2.2.drop dst).take 13
      = [0x80, 0x01] ++ be_bytes 2 seqnum ++ be_bytes 4 timestamp ++ be_bytes 4 1 ++ [0] ∧
    (codec_start_encode this mem dst dst_size seqnum timestamp).2.2.take dst
      = mem.take dst ∧
    (codec_start_encode this mem dst dst_size seqnum timestamp).2.2.drop (dst + 13)
      = mem.drop (dst + 13) ∧
    field_load (codec_start_encode this mem dst dst_size seqnum timestamp).2.2 dst
      rtp_header_v = 2 ∧
    field_load (codec_start_encode this mem dst dst_size seqnum timestamp).2.2 dst
      rtp_header_pt = 1 ∧
    field_load (codec_start_encode this mem dst dst_size seqnum timestamp).2.2 dst
      rtp_header_p = 0 ∧
    field_load (codec_start_encode this mem dst dst_size seqnum timestamp).2.2 dst
      rtp_header_x = 0 ∧
    field_load (codec_start_encode this mem dst dst_size seqnum timestamp).2.2 dst
      rtp_header_cc = 0 ∧
    field_load (codec_start_encode this mem dst dst_size seqnum timestamp).2.2 dst
      rtp_header_m = 0 ∧
    field_load (codec_start_encode this mem dst dst_size seqnum timestamp).2.2
      (dst + sizeof_rtp_header) rtp_payload_frame_count = 0 ∧
    field_load (codec_start_encode this mem dst dst_size seqnum timestamp).2.2
      (dst + sizeof_rtp_header) rtp_payload_flags = 0 := by
  rw [start_encode_closed this mem dst dst_size seqnum timestamp hlen]
  obtain ⟨pre, mid, post, rfl, rfl, hmid⟩ := mem_split mem dst 13 hlen
  have h13 : pre.length + 13 = pre.length + mid.length := by omega
  have htake : List.take pre.length (pre ++ mid ++ post) = pre := by
    simp [List.append_assoc]
  have hdrop : List.drop (pre.length + 13) (pre ++ mid ++ post) = post := by
    simp [h13, List.append_assoc]
  have e1 : be_bytes 2 seqnum = [seqnum / 256 % 256, seqnum % 256] := by
    simp [be_bytes, le_bytes]
  have e2 : be_bytes 4 timestamp = [timestamp / 256 / 256 / 256 % 256,
      timestamp / 256 / 256 % 256, timestamp / 256 % 256, timestamp % 256] := by
    simp [be_bytes, le_bytes]
  have e3 : be_bytes 4 1 = [0, 0, 0, 1] := by decide
  simp only [htake, hdrop, e1, e2, e3]
  refine ⟨trivial, ?_, ?_, ?_, ?_, ?_, ?_, ?_, ?_, ?_, ?_, ?_⟩
  · simp [List.append_assoc]
  · simp [List.append_assoc]
  · simp [List.append_assoc]
  all_goals
    simp only [field_load, rtp_header_v, rtp_header_pt, rtp_header_p, rtp_header_x,
      rtp_header_cc, rtp_header_m, rtp_payload_frame_count, rtp_payload_flags,
      sizeof_rtp_header, Nat.add_assoc, Nat.reduceAdd, Nat.add_zero]
    first
      | rw [mem_byte_start _ _ _ (by simp)]
      | rw [mem_byte_inside _ _ _ 1 (by simp)]
      | rw [mem_byte_inside _ _ _ 12 (by simp)]
    simp only [List.getD_cons_succ, List.getD_cons_zero]
    decide

/-- C13 at a concrete input: sequence number 0x1234 and timestamp 0xdeadbeef written
at address 4 of a 24-byte memory. -/
theorem start_encode_preamble_witness :
    (codec_start_encode sq_session
        [238, 238, 238, 238, 255, 255, 255, 255, 255, 255, 255, 255, 255, 255, 255, 255,
         255, 255, 255, 255, 255, 255, 255, 255] 4 20 0x1234 0xdeadbeef).2.2
      = [238, 238, 238, 238, 0x80, 0x01, 0x12, 0x34, 0xde, 0xad, 0xbe, 0xef, 0, 0, 0, 1, 0,
         255, 255, 255, 255, 255, 255, 255] ∧
    (codec_start_encode sq_session
        [238, 238, 238, 238, 255, 255, 255, 255, 255, 255, 255, 255, 255, 255, 255, 255,
         255, 255, 255, 255, 255, 255, 255, 255] 4 20 0x1234 0xdeadbeef).1 = 13 :=
  ⟨by decide,
    (start_encode_preamble sq_session
        [238, 238, 238, 238, 255, 255, 255, 255, 255, 255, 255, 255, 255, 255, 255, 255,
         255, 255, 255, 255, 255, 255, 255, 255] 4 20 0x1234 0xdeadbeef (by decide)).1⟩

/-! ## Encoding into a started packet -/

/-- A store that does not cover the address `p` leaves the byte at `p` as it was. -/
theorem mem_byte_store_other (mem w : List Nat) (d p : Nat) (hp : p < mem.length)
    (hdis : p < d ∨ d + w.length ≤ p) : mem_byte (mem_store mem d w) p = mem_byte mem p := by
  simp only [mem_byte, mem_store, List.getD_eq_getElem?_getD, List.append_assoc]
  rcases hdis with h | h
  · rw [List.getElem?_append_left (by simp; omega), List.getElem?_take_of_lt h]
  · have hd : d ≤ mem.length := by omega
    rw [List.getElem?_append_right (by simp; omega),
      List.getElem?_append_right (by simp; omega), List.getElem?_drop]
    congr 2
    simp only [List.length_take]
    omega

/-- A store inside the memory keeps its length. -/
theorem mem_store_length (mem w : List Nat) (d : Nat) (h : d + w.length ≤ mem.length) :
    (mem_store mem d w).length = mem.length := by
  simp only [mem_store, List.length_append, List.length_take, List.length_drop]
  omega

/-- The byte just stored at an address of the memory. -/
theorem mem_byte_store_self (mem : List Nat) (p b : Nat) (hp : p < mem.length) :
    mem_byte (mem_store mem p [b]) p = b := by
  simp only [mem_byte, mem_store, List.getD_eq_getElem?_getD, List.append_assoc]
  rw [List.getElem?_append_right (by simp)]
  simp [Nat.min_eq_left (Nat.le_of_lt hp)]

/-- Assigning to the 4-bit frame-count field and reading it back gives the value
modulo 16. -/
theorem frame_count_set_get (b : Nat) (v : Int) :
    bits_get (bits_set b 0 4 v) 0 4 = (v % 16).toNat := by
  have hv : (v % (2 ^ 4 : Int)).toNat < 16 := by
    have h1 := Int.emod_lt_of_pos v (show (0 : Int) < 2 ^ 4 by norm_num)
    have h2 := Int.emod_nonneg v (show (2 ^ 4 : Int) ≠ 0 by norm_num)
    omega
  have h16 : (2 ^ 4 : Int) = 16 := by norm_num
  simp only [bits_get, bits_set, pow_zero, Nat.div_one, Nat.mul_one]
  rw [h16] at hv ⊢
  omega

/-- Assigning to the 4-bit frame-count field keeps the four bits above it. -/
theorem frame_count_set_flags (b : Nat) (v : Int) (hb : b < 256) :
    bits_get (bits_set b 0 4 v) 4 4 = bits_get b 4 4 := by
  have hv : (v % (2 ^ 4 : Int)).toNat < 16 := by
    have h1 := Int.emod_lt_of_pos v (show (0 : Int) < 2 ^ 4 by norm_num)
    have h2 := Int.emod_nonneg v (show (2 ^ 4 : Int) ≠ 0 by norm_num)
    omega
  have h16 : (2 ^ 4 : Int) = 16 := by norm_num
  simp only [bits_get, bits_set, pow_zero, Nat.div_one, Nat.mul_one]
  rw [h16] at hv ⊢
  omega

/-- A `codec_encode` call in which the engine reports a non-negative status, made on a
session whose preamble byte lies in the memory and outside the engine's output:
the call returns, the memory keeps its length and the frame counter becomes the old
counter plus the reported frame number, modulo 16. -/
theorem encode_success (this : impl) (mem : List Nat) (R : encode_report)
    (src_size dst dst_size dst_out : Nat) (hres : 0 ≤ R.res) (hp : this.payload ≠ 0)
    (hpin : this.payload < mem.length)
    (hin : dst + R.written.length ≤ mem.length)
    (hdis : this.payload < dst ∨ dst + R.written.length ≤ this.payload) :
    ∃ mem1, codec_encode this mem R src_size dst dst_size dst_out
        = some (R.src_used, this, mem1, size_of_int R.dst_used) ∧
      mem1.length = mem.length ∧
      frame_counter this mem1
        = ((((frame_counter this mem : Nat) : Int) + R.frame_num) % 16).toNat := by
  have hlen := mem_store_length mem R.written dst hin
  have hpin2 : this.payload < (mem_store mem dst R.written).length := by omega
  have hother := mem_byte_store_other mem R.written dst this.payload hpin hdis
  refine ⟨field_store (mem_store mem dst R.written) this.payload rtp_payload_frame_count
    ((field_load (mem_store mem dst R.written) this.payload rtp_payload_frame_count : Int)
      + R.frame_num), ?_, ?_, ?_⟩
  · simp only [codec_encode, not_lt.mpr hres, hp, if_false]
  · simp only [field_store, rtp_payload_frame_count, Nat.add_zero]
    rw [mem_store_length _ _ _ (by simpa using hpin2), hlen]
  · simp only [frame_counter, field_load, field_store, rtp_payload_frame_count, Nat.add_zero]
    rw [mem_byte_store_self _ _ _ hpin2, frame_count_set_get, hother]

/-- C14: for every `codec_encode` call on a started packet whose preamble byte lies
outside the engine's output area: if the engine reports a negative status the call
returns `-EINVAL` whatever that status is, the session, the caller's `*dst_out` and
the frame counter are as before, and `codec_encode` itself has stored nothing; if the
engine reports a non-negative status the call returns the engine's `src_used` and
sets `*dst_out` to the engine's `dst_used`. -/
theorem encode_result (this : impl) (mem : List Nat) (R : encode_report)
    (src_size dst dst_size dst_out : Nat) (hp : this.payload ≠ 0)
    (hpin : this.payload < mem.length)
    (hin : dst + R.written.length ≤ mem.length)
    (hdis : this.payload < dst ∨ dst + R.written.length ≤ this.payload)
    (hused : 0 ≤ R.dst_used) (hused2 : R.dst_used < 2 ^ 31) :
    (R.res < 0 →
      codec_encode this mem R src_size dst dst_size dst_out
        = some (-EINVAL, this, mem_store mem dst R.written, dst_out) ∧
      frame_counter this (mem_store mem dst R.written) = frame_counter this mem) ∧
    (0 ≤ R.res →
      ∃ mem1, codec_encode this mem R src_size dst dst_size dst_out
        = some (R.src_used, this, mem1, size_of_int R.dst_used) ∧
      ((size_of_int R.dst_used : Nat) : Int) = R.dst_used) := by
  constructor
  · intro hneg
    refine ⟨by simp [codec_encode, hneg], ?_⟩
    simp only [frame_counter, field_load, rtp_payload_frame_count, Nat.add_zero]
    rw [mem_byte_store_other mem R.written dst this.payload hpin hdis]
  · intro hres
    obtain ⟨mem1, h1, -, -⟩ := encode_success this mem R src_size dst dst_size dst_out
      hres hp hpin hin hdis
    refine ⟨mem1, h1, ?_⟩
    unfold size_of_int SIZE_BITS
    rw [Int.emod_eq_of_lt hused (by omega)]
    omega

/-- C14 at concrete inputs: on a packet started at address 4 whose counter has reached
5, an engine status of `-3` gives `-EINVAL` with `*dst_out` and the counter as before,
and an engine status of 0 gives the engine's `src_used` and `dst_used`. -/
theorem encode_result_witness :
    codec_encode { sq_session with header := 4, payload := 16 }
        [238, 238, 238, 238, 0x80, 0x01, 0x12, 0x34, 0xde, 0xad, 0xbe, 0xef, 0, 0, 0, 1, 5,
         255, 255, 255, 255, 255, 255, 255]
        { res := -3, src_used := 0, dst_used := 0, frame_num := 2, written := [] }
        512 17 7 99
      = some (-EINVAL, { sq_session with header := 4, payload := 16 },
        [238, 238, 238, 238, 0x80, 0x01, 0x12, 0x34, 0xde, 0xad, 0xbe, 0xef, 0, 0, 0, 1, 5,
         255, 255, 255, 255, 255, 255, 255], 99) ∧
    codec_encode { sq_session with header := 4, payload := 16 }
        [238, 238, 238, 238, 0x80, 0x01, 0x12, 0x34, 0xde, 0xad, 0xbe, 0xef, 0, 0, 0, 1, 5,
         255, 255, 255, 255, 255, 255, 255]
        { res := 0, src_used := 512, dst_used := 3, frame_num := 2, written := [1, 2, 3] }
        512 17 7 99
      = some (512, { sq_session with header := 4, payload := 16 },
        [238, 238, 238, 238, 0x80, 0x01, 0x12, 0x34, 0xde, 0xad, 0xbe, 0xef, 0, 0, 0, 1, 7,
         1, 2, 3, 255, 255, 255, 255], 3) ∧
    ((size_of_int (3 : Int) : Nat) : Int) = 3 :=
  ⟨((encode_result { sq_session with header := 4, payload := 16 }
        [238, 238, 238, 238, 0x80, 0x01, 0x12, 0x34, 0xde, 0xad, 0xbe, 0xef, 0, 0, 0, 1, 5,
         255, 255, 255, 255, 255, 255, 255]
        { res := -3, src_used := 0, dst_used := 0, frame_num := 2, written := [] }
        512 17 7 99 (by decide) (by decide) (by decide) (by decide) (by decide)
        (by decide)).1 (by decide)).1,
    by decide, by decide⟩

/-- The frame counter is a 4-bit value. -/
theorem frame_counter_lt (this : impl) (mem : List Nat) : frame_counter this mem < 16 := by
  simp only [frame_counter, field_load, bits_get, rtp_payload_frame_count]
  exact Nat.mod_lt _ (by norm_num)

/-- After a sequence of `codec_encode` calls in which the engine reports non-negative
statuses and writes inside the memory and outside the preamble byte, the frame
counter is the old counter plus the reported frame numbers, modulo 16. -/
theorem encode_all_frame_counter (this : impl) (calls : List encode_call) (mem : List Nat)
    (dst_out : Nat) (hp : this.payload ≠ 0) (hpin : this.payload < mem.length)
    (hcalls : ∀ c ∈ calls, 0 ≤ c.report.res ∧
      c.dst + c.report.written.length ≤ mem.length ∧
      (this.payload < c.dst ∨ c.dst + c.report.written.length ≤ this.payload)) :
    ∃ mem1 out1, encode_all this mem dst_out calls = some (this, mem1, out1) ∧
      mem1.length = mem.length ∧
      ((frame_counter this mem1 : Nat) : Int)
        = (((frame_counter this mem : Nat) : Int)
            + (calls.map (fun c => c.report.frame_num)).sum) % 16 := by
  induction calls generalizing mem dst_out with
  | nil =>
    refine ⟨mem, dst_out, rfl, rfl, ?_⟩
    have h := frame_counter_lt this mem
    simp only [List.map_nil, List.sum_nil, add_zero]
    omega
  | cons c cs ih =>
    obtain ⟨hres, hin, hdis⟩ := hcalls c (List.mem_cons_self c cs)
    obtain ⟨mem1, h1, hlen1, hfc1⟩ := encode_success this mem c.report c.src_size c.dst
      c.dst_size dst_out hres hp hpin hin hdis
    have hcalls2 : ∀ c2 ∈ cs, 0 ≤ c2.report.res ∧
        c2.dst + c2.report.written.length ≤ mem1.length ∧
        (this.payload < c2.dst ∨ c2.dst + c2.report.written.length ≤ this.payload) := by
      intro c2 hc2
      rw [hlen1]
      exact hcalls c2 (List.mem_cons_of_mem c hc2)
    obtain ⟨mem2, out2, h2, hlen2, hfc2⟩ := ih mem1 (size_of_int c.report.dst_used)
      (by omega) hcalls2
    refine ⟨mem2, out2, ?_, by omega, ?_⟩
    · simp only [encode_all, h1, h2]
    · rw [hfc2, hfc1]
      simp only [List.map_cons, List.sum_cons]
      have hnn : (0 : Int) ≤ (((frame_counter this mem : Nat) : Int) + c.report.frame_num) % 16 :=
        Int.emod_nonneg _ (by norm_num)
      rw [Int.toNat_of_nonneg hnn]
      omega

/-- The session and the packet right after `codec_start_encode`: the preamble pointer
is 12 bytes into the buffer, the memory has kept its length and the frame counter is
0. -/
theorem start_encode_state (this : impl) (mem : List Nat) (dst dst_size seqnum timestamp : Nat)
    (hlen : dst + 13 ≤ mem.length) :
    (codec_start_encode this mem dst dst_size seqnum timestamp).2.1
      = { this with header := dst, payload := dst + 12 } ∧
    (codec_start_encode this mem dst dst_size seqnum timestamp).2.2.length = mem.length ∧
    frame_counter (codec_start_encode this mem dst dst_size seqnum timestamp).2.1
      (codec_start_encode this mem dst dst_size seqnum timestamp).2.2 = 0 := by
  rw [start_encode_closed this mem dst dst_size seqnum timestamp hlen]
  refine ⟨rfl, ?_, ?_⟩
  · simp only [List.length_append, List.length_take, List.length_drop, List.length_cons,
      List.length_nil]
    omega
  · obtain ⟨pre, mid, post, rfl, rfl, hmid⟩ := mem_split mem dst 13 hlen
    have htake : List.take pre.length (pre ++ mid ++ post) = pre := by
      simp [List.append_assoc]
    simp only [frame_counter, field_load, rtp_payload_frame_count, Nat.add_zero, htake]
    rw [mem_byte_inside _ _ _ 12 (by simp)]
    simp only [List.getD_cons_succ, List.getD_cons_zero]
    decide

/-- C11, as the code has it: after `codec_start_encode` on a buffer of at least 13
bytes, followed by any number of `codec_encode` calls in which the engine reports
non-negative statuses and non-negative frame numbers `f1 .. fN` and writes inside
the memory and outside the preamble byte, the calls all return and the frame counter
of the packet equals `f1 + ... + fN` whenever that sum is at most 15, the largest
value of the 4-bit field. -/
theorem frame_counter_sum (this : impl) (mem : List Nat)
    (dst dst_size seqnum timestamp dst_out : Nat) (calls : List encode_call)
    (hlen : dst + 13 ≤ mem.length)
    (hcalls : ∀ c ∈ calls, 0 ≤ c.report.res ∧ 0 ≤ c.report.frame_num ∧
      c.dst + c.report.written.length ≤ mem.length ∧
      (dst + 12 < c.dst ∨ c.dst + c.report.written.length ≤ dst + 12))
    (hsum : (calls.map (fun c => c.report.frame_num)).sum ≤ 15) :
    ∃ this1 mem1 out1,
      encode_all (codec_start_encode this mem dst dst_size seqnum timestamp).2.1
        (codec_start_encode this mem dst dst_size seqnum timestamp).2.2 dst_out calls
        = some (this1, mem1, out1) ∧
      ((frame_counter this1 mem1 : Nat) : Int)
        = (calls.map (fun c => c.report.frame_num)).sum := by
  obtain ⟨hthis, hlen2, hfc⟩ := start_encode_state this mem dst dst_size seqnum timestamp hlen
  have hnn : (0 : Int) ≤ (calls.map (fun c => c.report.frame_num)).sum := by
    apply List.sum_nonneg
    intro x hx
    obtain ⟨c, hc, rfl⟩ := List.mem_map.mp hx
    exact (hcalls c hc).2.1
  have hpay : (codec_start_encode this mem dst dst_size seqnum timestamp).2.1.payload
      = dst + 12 := by rw [hthis]
  obtain ⟨mem1, out1, h1, -, hfc1⟩ := encode_all_frame_counter
    (codec_start_encode this mem dst dst_size seqnum timestamp).2.1 calls
    (codec_start_encode this mem dst dst_size seqnum timestamp).2.2 dst_out
    (by rw [hpay]; omega) (by rw [hpay, hlen2]; omega)
    (by
      intro c hc
      obtain ⟨h1, -, h3, h4⟩ := hcalls c hc
      rw [hpay, hlen2]
      exact ⟨h1, h3, h4⟩)
  refine ⟨_, mem1, out1, h1, ?_⟩
  rw [hfc1, hfc]
  omega

/-- C11 at a concrete input: three calls reporting 4, 0 and 7 frames leave the counter
at 11. -/
theorem frame_counter_sum_witness :
    ∃ this1 mem1 out1,
      encode_all
        (codec_start_encode sq_session (List.replicate 40 255) 4 36 0x1234 0xdeadbeef).2.1
        (codec_start_encode sq_session (List.replicate 40 255) 4 36 0x1234 0xdeadbeef).2.2 0
        calls_4_0_7 = some (this1, mem1, out1) ∧
      ((frame_counter this1 mem1 : Nat) : Int)
        = (calls_4_0_7.map (fun c => c.report.frame_num)).sum :=
  frame_counter_sum sq_session (List.replicate 40 255) 4 36 0x1234 0xdeadbeef 0 calls_4_0_7
    (by decide) (by decide) (by decide)

/-- C11 as stated fails once the sum exceeds 15: after `codec_start_encode` and two
successful `codec_encode` calls that report 9 frames each, the frame counter is 2,
not 18. -/
theorem frame_counter_wraps :
    ∃ this1 mem1 out1,
      encode_all
        (codec_start_encode sq_session (List.replicate 40 255) 4 36 0x1234 0xdeadbeef).2.1
        (codec_start_encode sq_session (List.replicate 40 255) 4 36 0x1234 0xdeadbeef).2.2 0
        calls_9_9 = some (this1, mem1, out1) ∧
      (calls_9_9.map (fun c => c.report.frame_num)).sum = 18 ∧
      frame_counter this1 mem1 = 2 :=
  ⟨_, _, _, rfl, by decide, rfl⟩

/-! ## The exact success condition of the negotiation -/

/-- The channel-mode ladder succeeds as soon as one mode bit is set. -/
theorem select_channel_mode_of_set (K : Headers) (conf : a2dp_ldac_t)
    (h : ∃ m ∈ K.modes, conf.channel_mode &&& m ≠ 0) :
    ∃ conf2, select_channel_mode K conf = some conf2 := by
  obtain ⟨m, hm, hset⟩ := h
  simp only [Headers.modes, List.mem_cons, List.mem_singleton, List.not_mem_nil,
    or_false] at hm
  unfold select_channel_mode
  by_cases h1 : conf.channel_mode &&& K.LDACBT_CHANNEL_MODE_STEREO ≠ 0
  · exact ⟨_, if_pos h1⟩
  · by_cases h2 : conf.channel_mode &&& K.LDACBT_CHANNEL_MODE_DUAL_CHANNEL ≠ 0
    · exact ⟨_, by rw [if_neg h1, if_pos h2]⟩
    · by_cases h3 : conf.channel_mode &&& K.LDACBT_CHANNEL_MODE_MONO ≠ 0
      · exact ⟨_, by rw [if_neg h1, if_neg h2, if_pos h3]⟩
      · exfalso
        rcases hm with e | e | e <;> subst e
        · exact h1 hset
        · exact h2 hset
        · exact h3 hset

/-- C22: with the six rate constants distinct single bits, `codec_select_config`
returns the structure size if and only if the input is at least the structure size,
the 192000 Hz bit is set, none of the five lower rate bits is set and at least one
mode bit is set; a call that returns the structure size has written the 192000 Hz
bit as the rate; a call that does not has returned a negative value and left `config`
as it was; and every input of at least the structure size whose mask has a lower rate
bit is answered with `-ENOTSUP`. -/
theorem select_config_succeeds_iff (K : Headers) (hK : K.Valid) (flags : Nat)
    (caps : List Nat) (caps_size : Nat) (config : List Nat) :
    ((codec_select_config K flags caps caps_size config).1 = sizeof_a2dp_ldac_t ↔
      sizeof_a2dp_ldac_t ≤ caps_size ∧
      (a2dp_ldac_t.of_bytes K caps).frequency &&& K.LDACBT_SAMPLING_FREQ_192000 ≠ 0 ∧
      (∀ c ∈ K.lower_rates, (a2dp_ldac_t.of_bytes K caps).frequency &&& c = 0) ∧
      (∃ m ∈ K.modes, (a2dp_ldac_t.of_bytes K caps).channel_mode &&& m ≠ 0)) ∧
    ((codec_select_config K flags caps caps_size config).1 = sizeof_a2dp_ldac_t →
      (a2dp_ldac_t.of_bytes K
        (codec_select_config K flags caps caps_size config).2).frequency
        = K.LDACBT_SAMPLING_FREQ_192000) ∧
    ((codec_select_config K flags caps caps_size config).1 ≠ sizeof_a2dp_ldac_t →
      (codec_select_config K flags caps caps_size config).1 < 0 ∧
      (codec_select_config K flags caps caps_size config).2 = config) ∧
    (sizeof_a2dp_ldac_t ≤ caps_size →
      (∃ c ∈ K.lower_rates, (a2dp_ldac_t.of_bytes K caps).frequency &&& c ≠ 0) →
      codec_select_config K flags caps caps_size config = (-ENOTSUP, config)) := by
  have hneg1 : (-EINVAL : Int) ≠ ((sizeof_a2dp_ldac_t : Nat) : Int) := by decide
  have hneg2 : (-ENOTSUP : Int) ≠ ((sizeof_a2dp_ldac_t : Nat) : Int) := by decide
  have hlt1 : (-EINVAL : Int) < 0 := by decide
  have hlt2 : (-ENOTSUP : Int) < 0 := by decide
  have hlast : sizeof_a2dp_ldac_t ≤ caps_size →
      (∃ c ∈ K.lower_rates, (a2dp_ldac_t.of_bytes K caps).frequency &&& c ≠ 0) →
      codec_select_config K flags caps caps_size config = (-ENOTSUP, config) := by
    rintro hsize ⟨c, hc, hset⟩
    exact select_config_of_rate_fail K flags caps caps_size config hsize
      (select_frequency_of_lower K hK _ c hc hset)
  by_cases hsize : caps_size < sizeof_a2dp_ldac_t
  · have hret : codec_select_config K flags caps caps_size config = (-EINVAL, config) := by
      simp [codec_select_config, hsize]
    rw [hret]
    refine ⟨⟨fun h => absurd h hneg1, fun h => absurd h.1 (not_le.mpr hsize)⟩,
      fun h => absurd h hneg1, fun _ => ⟨hlt1, rfl⟩, fun h => absurd h (not_le.mpr hsize)⟩
  · have hsize2 : sizeof_a2dp_ldac_t ≤ caps_size := not_lt.mp hsize
    cases hf : select_frequency K (a2dp_ldac_t.of_bytes K caps) with
    | none =>
      have hret := select_config_of_rate_fail K flags caps caps_size config hsize2 hf
      refine ⟨⟨?_, ?_⟩, ?_, ?_, hlast⟩
      · rw [hret]
        exact fun h => absurd h hneg2
      · rintro ⟨-, hset, hlow, -⟩
        rw [select_frequency_of_no_lower K _ hlow, if_pos hset] at hf
        cases hf
      · rw [hret]
        exact fun h => absurd h hneg2
      · rw [hret]
        exact fun _ => ⟨hlt2, rfl⟩
    | some conf1 =>
      obtain ⟨hset, rfl⟩ := select_frequency_eq_some K hK _ _ hf
      have hlow : ∀ c ∈ K.lower_rates,
          (a2dp_ldac_t.of_bytes K caps).frequency &&& c = 0 := by
        intro c hc
        by_contra hne
        rw [select_frequency_of_lower K hK _ c hc hne] at hf
        cases hf
      have hret := select_config_of_rate_ok K flags caps caps_size config hsize2 _ hf
      cases hc : select_channel_mode K
          { info := { vendor_id := K.LDAC_VENDOR_ID, codec_id := K.LDAC_CODEC_ID }
            frequency := u8 K.LDACBT_SAMPLING_FREQ_192000
            channel_mode := (a2dp_ldac_t.of_bytes K caps).channel_mode } with
      | none =>
        simp only [hc] at hret
        refine ⟨⟨?_, ?_⟩, ?_, ?_, hlast⟩
        · rw [hret]
          exact fun h => absurd h hneg2
        · rintro ⟨-, -, -, hmode⟩
          obtain ⟨conf2, h2⟩ := select_channel_mode_of_set K
            { info := { vendor_id := K.LDAC_VENDOR_ID, codec_id := K.LDAC_CODEC_ID }
              frequency := u8 K.LDACBT_SAMPLING_FREQ_192000
              channel_mode := (a2dp_ldac_t.of_bytes K caps).channel_mode } hmode
          rw [hc] at h2
          cases h2
        · rw [hret]
          exact fun h => absurd h hneg2
        · rw [hret]
          exact fun _ => ⟨hlt2, rfl⟩
      | some conf2 =>
        obtain ⟨m, hm, hmset, rfl⟩ := select_channel_mode_eq_some K _ _ hc
        simp only [hc] at hret
        rw [hret]
        refine ⟨⟨fun _ => ⟨hsize2, hset, hlow, m, hm, hmset⟩, fun _ => rfl⟩, ?_,
          fun h => absurd rfl h, fun _ hex => ?_⟩
        swap
        · obtain ⟨c, hc2, hne⟩ := hex
          exact absurd (hlow c hc2) hne
        intro _
        rw [(of_bytes_memcpy K _ config).1]
        obtain ⟨hs, -⟩ := hK
        have s6 : single_bit K.LDACBT_SAMPLING_FREQ_192000 :=
          hs _ (by simp [Headers.rates])
        simp only [u8_single_bit s6]

/-- C22 at concrete inputs: the mask {192000} with the mode mask {stereo, mono}
satisfies the condition and is accepted; the mask {44100, 192000} contains a lower
rate bit and is answered with `-ENOTSUP`. -/
theorem select_config_succeeds_iff_witness :
    (codec_select_config spec_headers 0 [0x2d, 0x01, 0, 0, 0xaa, 0, 0x20, 0x05] 8
      [0, 0, 0, 0, 0, 0, 0, 0]).1 = sizeof_a2dp_ldac_t ∧
    codec_select_config spec_headers 0 [0x2d, 0x01, 0, 0, 0xaa, 0, 0x21, 0x05] 8
      [0, 0, 0, 0, 0, 0, 0, 0] = (-ENOTSUP, [0, 0, 0, 0, 0, 0, 0, 0]) :=
  ⟨(select_config_succeeds_iff spec_headers (by decide) 0
      [0x2d, 0x01, 0, 0, 0xaa, 0, 0x20, 0x05] 8 [0, 0, 0, 0, 0, 0, 0, 0]).1.2
      (by decide),
    (select_config_succeeds_iff spec_headers (by decide) 0
      [0x2d, 0x01, 0, 0, 0xaa, 0, 0x21, 0x05] 8 [0, 0, 0, 0, 0, 0, 0, 0]).2.2.2
      (by decide) (by decide)⟩

/-! ## What `codec_init` hands to the engine and leaves in the session -/

/-- A case of the sample-rate `switch` that is taken is a row of the rate table for the
configuration's rate field. -/
theorem init_frequency_eq_some (K : Headers) (conf : a2dp_ldac_t) (hz : Nat) (lsu : Int)
    (h : init_frequency K conf = some (hz, lsu)) :
    ∃ spb : Nat, (conf.frequency, hz, spb) ∈ spec_rate_table K ∧ lsu = (spb : Int) := by
  unfold init_frequency at h
  simp only [spec_rate_table, List.mem_cons, List.mem_singleton, List.not_mem_nil,
    or_false, Prod.mk.injEq]
  split_ifs at h with h1 h2 h3 h4 h5 h6 <;> cases h
  · exact ⟨128, Or.inl ⟨h1, rfl, rfl⟩, rfl⟩
  · exact ⟨128, Or.inr (Or.inl ⟨h2, rfl, rfl⟩), rfl⟩
  · exact ⟨256, Or.inr (Or.inr (Or.inl ⟨h3, rfl, rfl⟩)), rfl⟩
  · exact ⟨256, Or.inr (Or.inr (Or.inr (Or.inl ⟨h4, rfl, rfl⟩))), rfl⟩
  · exact ⟨512, Or.inr (Or.inr (Or.inr (Or.inr (Or.inl ⟨h5, rfl, rfl⟩)))), rfl⟩
  · exact ⟨512, Or.inr (Or.inr (Or.inr (Or.inr (Or.inr ⟨h6, rfl, rfl⟩)))), rfl⟩

/-- A case of the channel-mode `switch` that is taken is a row of the channel table for
the configuration's mode field. -/
theorem init_channels_eq_some (K : Headers) (conf : a2dp_ldac_t) (ch : Nat)
    (h : init_channels K conf = some ch) :
    (conf.channel_mode, ch) ∈ spec_mode_table K := by
  unfold init_channels at h
  simp only [spec_mode_table, List.mem_cons, List.mem_singleton, List.not_mem_nil,
    or_false, Prod.mk.injEq]
  split_ifs at h with h1 h2 h3 <;> cases h
  · exact Or.inl ⟨h1, rfl⟩
  · exact Or.inr (Or.inl ⟨h2, rfl⟩)
  · exact Or.inr (Or.inr ⟨h3, rfl⟩)

/-- Every outcome of `codec_init`, by cases: either the engine's configure operation
was not called and no session is returned, or it was called once, after the handle
acquisition and before any release, with MTU 0, the standard tier, the mode field, the
16-bit format and a rate that the `switch` gave for the rate field; a returned session
then has MTU 0, the standard tier and the frame length that the tier `switch` gave. -/
theorem codec_init_outcome (K : Headers) (C : EngineConsts) (E : init_env) (flags : Nat)
    (config : List Nat) (config_len : Nat) (info : spa_audio_info) (res : init_result)
    (h : codec_init K C E flags config config_len info = some res) :
    (res.ret = none ∧ configurations res.calls = 0) ∨
    ∃ (hz ch : Nat) (lsu fl : Int),
      init_frequency K (a2dp_ldac_t.of_bytes K config) = some (hz, lsu) ∧
      init_channels K (a2dp_ldac_t.of_bytes K config) = some ch ∧
      init_frame_length C C.LDACBT_EQMID_SQ = some fl ∧
      (res.calls = [engine_call.get_handle,
          engine_call.init_handle_encode E.get_handle 0 C.LDACBT_EQMID_SQ
            ((a2dp_ldac_t.of_bytes K config).channel_mode : Int) C.LDACBT_SMPL_FMT_S16
            (hz : Int)] ∨
        res.calls = [engine_call.get_handle,
          engine_call.init_handle_encode E.get_handle 0 C.LDACBT_EQMID_SQ
            ((a2dp_ldac_t.of_bytes K config).channel_mode : Int) C.LDACBT_SMPL_FMT_S16
            (hz : Int),
          engine_call.free_handle E.get_handle]) ∧
      configurations res.calls = 1 ∧
      ∀ s, res.ret = some s →
        s.mtu = 0 ∧ s.eqmid = C.LDACBT_EQMID_SQ ∧ s.frame_length = fl ∧
        s.fmt = C.LDACBT_SMPL_FMT_S16 ∧ s.frequency = (hz : Int) ∧
        s.channel_mode = ((a2dp_ldac_t.of_bytes K config).channel_mode : Int) := by
  unfold codec_init at h
  simp only at h
  split at h
  · cases h
  · split at h
    · cases h
      left
      simp only [init_error]
      split <;> simp [configurations]
    · split at h
      · cases h
        left
        simp only [init_error]
        split <;> simp [configurations]
      · split at h
        · cases h
          left
          simp only [init_error]
          split <;> simp [configurations]
        · split at h
          · cases h
            left
            simp only [init_error]
            split <;> simp [configurations]
          · rename_i _ hz lsu hfreq _ ch hch _ fl hfl
            right
            refine ⟨hz, ch, lsu, fl, hfreq, hch, hfl, ?_⟩
            split at h
            · cases h
              have hhandle : ¬ E.get_handle = 0 := by assumption
              simp [init_error, hhandle, configurations, impl.zero]
            · cases h
              simp [configurations, impl.zero]

/-- C24: for every `codec_init` call that reaches the engine's configure operation,
that operation is called once, on the acquired handle, with MTU 0, the standard
quality tier, the 16-bit signed sample format, the rate in Hz of the configuration's
rate field and the configuration's channel-mode field; a session returned by the call
has 0 in its `mtu` field. Of the later operations only `codec_get_num_blocks` changes
the `mtu` field: it stores its argument, and `codec_start_encode`, `codec_encode`,
`codec_reduce_bitpool` and `codec_increase_bitpool` leave the field as it was. -/
theorem init_configure_arguments (K : Headers) (C : EngineConsts) (E : init_env)
    (flags : Nat) (config : List Nat) (config_len : Nat) (info : spa_audio_info)
    (res : init_result)
    (h : codec_init K C E flags config config_len info = some res)
    (hreach : configurations res.calls ≠ 0) :
    (∃ hz spb ch : Nat,
      ((a2dp_ldac_t.of_bytes K config).frequency, hz, spb) ∈ spec_rate_table K ∧
      ((a2dp_ldac_t.of_bytes K config).channel_mode, ch) ∈ spec_mode_table K ∧
      engine_call.init_handle_encode E.get_handle 0 C.LDACBT_EQMID_SQ
        ((a2dp_ldac_t.of_bytes K config).channel_mode : Int) C.LDACBT_SMPL_FMT_S16
        (hz : Int) ∈ res.calls ∧
      (∀ ldac mtu eqmid channel_mode fmt frequency,
        engine_call.init_handle_encode ldac mtu eqmid channel_mode fmt frequency
          ∈ res.calls →
        ldac = E.get_handle ∧ mtu = 0 ∧ eqmid = C.LDACBT_EQMID_SQ ∧
        channel_mode = ((a2dp_ldac_t.of_bytes K config).channel_mode : Int) ∧
        fmt = C.LDACBT_SMPL_FMT_S16 ∧ frequency = (hz : Int)) ∧
      configurations res.calls = 1 ∧
      ∀ s, res.ret = some s → s.mtu = 0) ∧
    (∀ (s : impl) (mem : List Nat) (dst dst_size seqnum timestamp : Nat),
      (codec_start_encode s mem dst dst_size seqnum timestamp).2.1.mtu = s.mtu) ∧
    (∀ (s : impl) (mem : List Nat) (R : encode_report) (src_size dst dst_size dst_out : Nat)
      (r : Int × impl × List Nat × Nat),
      codec_encode s mem R src_size dst dst_size dst_out = some r → r.2.1.mtu = s.mtu) ∧
    (∀ (s : impl) (alter : Nat → Int → Int),
      (codec_reduce_bitpool C alter s).2.1.mtu = s.mtu ∧
      (codec_increase_bitpool C alter s).2.1.mtu = s.mtu) ∧
    (∀ (s : impl) (mtu : Nat) (n : Int) (s2 : impl),
      codec_get_num_blocks s mtu = some (n, s2) → s2.mtu = int_of_size mtu) := by
  refine ⟨?_, fun _ _ _ _ _ _ => rfl, ?_, fun _ _ => ⟨rfl, rfl⟩, ?_⟩
  · rcases codec_init_outcome K C E flags config config_len info res h with
      hno | ⟨hz, ch, lsu, fl, hfreq, hch, -, hcalls, hone, hsess⟩
    · exact absurd hno.2 hreach
    · obtain ⟨spb, hrow, -⟩ := init_frequency_eq_some K _ hz lsu hfreq
      have hmrow := init_channels_eq_some K _ ch hch
      refine ⟨hz, spb, ch, hrow, hmrow, ?_, ?_, hone, fun s hs => (hsess s hs).1⟩
      · rcases hcalls with hc | hc <;> simp [hc]
      · intro ldac mtu eqmid channel_mode fmt frequency hmem
        rcases hcalls with hc | hc <;>
          · rw [hc] at hmem
            simp only [List.mem_cons, List.mem_singleton, List.not_mem_nil, or_false,
              engine_call.init_handle_encode.injEq, false_or, reduceCtorEq] at hmem
            exact hmem
  · intro s mem R src_size dst dst_size dst_out r hr
    unfold codec_encode at hr
    simp only at hr
    split at hr
    · cases hr
      rfl
    · split at hr
      · cases hr
      · cases hr
        rfl
  · intro s mtu n s2 hq
    unfold codec_get_num_blocks at hq
    simp only at hq
    split at hq
    · cases hq
    · cases hq
      rfl

/-- C24 at a concrete input: the 48000 Hz stereo configuration reaches the configure
operation, and the call recorded is the one with handle 7, MTU 0, tier 1, mode 4,
format 2 and rate 48000. -/
theorem init_configure_arguments_witness :
    ∃ hz spb ch : Nat,
      ((a2dp_ldac_t.of_bytes spec_headers
          [0x2d, 0x01, 0, 0, 0xaa, 0, 0x02, 0x04]).frequency, hz, spb)
        ∈ spec_rate_table spec_headers ∧
      ((a2dp_ldac_t.of_bytes spec_headers
          [0x2d, 0x01, 0, 0, 0xaa, 0, 0x02, 0x04]).channel_mode, ch)
        ∈ spec_mode_table spec_headers ∧
      engine_call.init_handle_encode ok_env.get_handle 0 spec_engine.LDACBT_EQMID_SQ
        ((a2dp_ldac_t.of_bytes spec_headers
          [0x2d, 0x01, 0, 0, 0xaa, 0, 0x02, 0x04]).channel_mode : Int)
        spec_engine.LDACBT_SMPL_FMT_S16 (hz : Int)
        ∈ [engine_call.get_handle, engine_call.init_handle_encode 7 0 1 4 2 48000] ∧
      (∀ ldac mtu eqmid channel_mode fmt frequency,
        engine_call.init_handle_encode ldac mtu eqmid channel_mode fmt frequency
          ∈ [engine_call.get_handle, engine_call.init_handle_encode 7 0 1 4 2 48000] →
        ldac = ok_env.get_handle ∧ mtu = 0 ∧ eqmid = spec_engine.LDACBT_EQMID_SQ ∧
        channel_mode = ((a2dp_ldac_t.of_bytes spec_headers
          [0x2d, 0x01, 0, 0, 0xaa, 0, 0x02, 0x04]).channel_mode : Int) ∧
        fmt = spec_engine.LDACBT_SMPL_FMT_S16 ∧ frequency = (hz : Int)) ∧
      configurations [engine_call.get_handle,
        engine_call.init_handle_encode 7 0 1 4 2 48000] = 1 ∧
      ∀ s, some { queried_session with mtu := 0 } = some s → s.mtu = 0 :=
  (init_configure_arguments spec_headers spec_engine ok_env 0
    [0x2d, 0x01, 0, 0, 0xaa, 0, 0x02, 0x04] 8 spa_audio_info.zero
    { ret := some { queried_session with mtu := 0 }
      info := configured_info spec_engine 48000 2
      errno := 0
      calls := [engine_call.get_handle, engine_call.init_handle_encode 7 0 1 4 2 48000] }
    (by decide) (by decide)).1

/-! ## The frame length on every reachable session -/

/-- A later operation keeps the quality tier and the frame length of the session. -/
theorem session_step_keeps (C : EngineConsts) (s s2 : impl) (h : session_step C s s2) :
    s2.eqmid = s.eqmid ∧ s2.frame_length = s.frame_length := by
  cases h with
  | get_num_blocks mtu n _ hq =>
    unfold codec_get_num_blocks at hq
    simp only at hq
    split at hq
    · cases hq
    · cases hq
      exact ⟨rfl, rfl⟩
  | start_encode mem dst dst_size seqnum timestamp => exact ⟨rfl, rfl⟩
  | encode mem R src_size dst dst_size dst_out r hr =>
    unfold codec_encode at hr
    simp only at hr
    split at hr
    · cases hr
      exact ⟨rfl, rfl⟩
    · split at hr
      · cases hr
      · cases hr
        exact ⟨rfl, rfl⟩
  | reduce_bitpool alter => exact ⟨rfl, rfl⟩
  | increase_bitpool alter => exact ⟨rfl, rfl⟩

/-- On every reachable session the quality tier is the standard one and the frame
length is 220. -/
theorem reachable_inv (K : Headers) (C : EngineConsts) (hC : C.Valid) (s : impl)
    (h : reachable K C s) : s.eqmid = C.LDACBT_EQMID_SQ ∧ s.frame_length = 220 := by
  induction h with
  | init E flags config config_len info res s hinit hs =>
    rcases codec_init_outcome K C E flags config config_len info res hinit with
      hno | ⟨hz, ch, lsu, fl, -, -, hfl, -, -, hsess⟩
    · rw [hno.1] at hs
      cases hs
    · obtain ⟨-, heq, hlen, -⟩ := hsess s hs
      rw [init_frame_length_sq C hC] at hfl
      cases hfl
      exact ⟨heq, hlen⟩
  | step s s2 _ hstep ih =>
    obtain ⟨h1, h2⟩ := session_step_keeps C s s2 hstep
    exact ⟨h1.trans ih.1, h2.trans ih.2⟩

/-- C21: on every session reachable from `codec_init` (the session a successful
`codec_init` returns, whatever the configuration, and every session left by a later
`codec_get_num_blocks`, `codec_start_encode`, `codec_encode`, `codec_reduce_bitpool`
or `codec_increase_bitpool`) the quality tier is the standard one and the frame length
is 220; hence `codec_get_num_blocks` always returns on it, without a zero divisor,
leaves the frame length 220, and for an MTU of at least 13 returns
`min(15, (mtu - 13) div 220)`. -/
theorem reachable_frame_length (K : Headers) (C : EngineConsts) (hC : C.Valid) (s : impl)
    (h : reachable K C s) :
    s.eqmid = C.LDACBT_EQMID_SQ ∧ s.frame_length = 220 ∧
    ∀ mtu : Nat, ∃ n s2, codec_get_num_blocks s mtu = some (n, s2) ∧
      s2.frame_length = 220 ∧
      (13 ≤ mtu → mtu < 2 ^ 64 → n = ((min 15 ((mtu - 13) / 220) : Nat) : Int)) := by
  obtain ⟨heq, hlen⟩ := reachable_inv K C hC s h
  refine ⟨heq, hlen, fun mtu => ?_⟩
  have hq := get_num_blocks_eq s mtu (by rw [hlen]; decide) (by rw [hlen]; decide)
  refine ⟨_, _, hq, hlen, fun h13 h64 => ?_⟩
  rw [hlen, size_sub_of_le h13 h64]
  rfl

/-- C21 at a concrete input: the session returned by `codec_init` for 48000 Hz stereo
and then queried with MTU 679 is reachable, has frame length 220, and the query with
MTU 1000 returns `min(15, 987 div 220) = 4`. -/
theorem reachable_frame_length_witness :
    reachable spec_headers spec_engine queried_session ∧
    queried_session.frame_length = 220 ∧
    codec_get_num_blocks queried_session 1000
      = some (4, { queried_session with mtu := 1000 }) :=
  have hr : reachable spec_headers spec_engine queried_session :=
    reachable.step { queried_session with mtu := 0 } queried_session
      (reachable.init ok_env 0 [0x2d, 0x01, 0, 0, 0xaa, 0, 0x02, 0x04] 8 spa_audio_info.zero
        { ret := some { queried_session with mtu := 0 }
          info := configured_info spec_engine 48000 2
          errno := 0
          calls := [engine_call.get_handle, engine_call.init_handle_encode 7 0 1 4 2 48000] }
        { queried_session with mtu := 0 } (by decide) rfl)
      (session_step.get_num_blocks { queried_session with mtu := 0 } 679 3 queried_session
        (by decide))
  ⟨hr, (reachable_frame_length spec_headers spec_engine (by decide) queried_session hr).2.1,
    by decide⟩

/-! ## What `codec_encode` changes in the packet preamble -/

/-- Assigning to the 4-bit frame-count field keeps the four bits above it, whatever
the byte held. -/
theorem frame_count_set_keeps_flags (b : Nat) (v : Int) :
    bits_get (bits_set b 0 4 v) 4 4 = bits_get b 4 4 := by
  have hv : (v % (2 ^ 4 : Int)).toNat < 16 := by
    have h1 := Int.emod_lt_of_pos v (show (0 : Int) < 2 ^ 4 by norm_num)
    have h2 := Int.emod_nonneg v (show (2 ^ 4 : Int) ≠ 0 by norm_num)
    omega
  have h16 : (2 ^ 4 : Int) = 16 := by norm_num
  simp only [bits_get, bits_set, pow_zero, Nat.div_one, Nat.mul_one]
  rw [h16] at hv ⊢
  omega

/-- The memory after a `codec_encode` call in which the engine reports a non-negative
status: the engine's output, then the assignment to the frame-count field. -/
theorem encode_success_mem (this : impl) (mem : List Nat) (R : encode_report)
    (src_size dst dst_size dst_out : Nat) (hres : 0 ≤ R.res) (hp : this.payload ≠ 0) :
    codec_encode this mem R src_size dst dst_size dst_out =
      some (R.src_used, this,
        field_store (mem_store mem dst R.written) this.payload rtp_payload_frame_count
          ((field_load (mem_store mem dst R.written) this.payload
            rtp_payload_frame_count : Int) + R.frame_num),
        size_of_int R.dst_used) := by
  simp only [codec_encode, not_lt.mpr hres, hp, if_false]

/-- The assignment to the frame-count field of the preamble at address `p` changes
the byte at `p` only, and in that byte only the low four bits. -/
theorem frame_count_store_only (mem : List Nat) (p : Nat) (v : Int) (hp : p < mem.length) :
    (field_store mem p rtp_payload_frame_count v).length = mem.length ∧
    (∀ a, a < mem.length → a ≠ p →
      mem_byte (field_store mem p rtp_payload_frame_count v) a = mem_byte mem a) ∧
    field_load (field_store mem p rtp_payload_frame_count v) p rtp_payload_flags
      = field_load mem p rtp_payload_flags := by
  simp only [field_store, field_load, rtp_payload_frame_count, rtp_payload_flags,
    Nat.add_zero]
  refine ⟨mem_store_length _ _ _ (by simpa using hp), ?_, ?_⟩
  · intro a ha hne
    apply mem_byte_store_other _ _ _ _ ha
    simp only [List.length_cons, List.length_nil]
    omega
  · rw [mem_byte_store_self _ _ _ hp, frame_count_set_keeps_flags]

/-- A sequence of successful `codec_encode` calls whose engine output lies in the
memory and outside the 13 preamble bytes at `base` leaves the 12 header bytes and the
four flag bits of the preamble byte as they were. -/
theorem encode_all_keeps_preamble (this : impl) (base : Nat) (calls : List encode_call)
    (mem : List Nat) (dst_out : Nat) (hbase : this.payload = base + 12)
    (hpin : base + 13 ≤ mem.length)
    (hcalls : ∀ c ∈ calls, 0 ≤ c.report.res ∧
      c.dst + c.report.written.length ≤ mem.length ∧
      (base + 12 < c.dst ∨ c.dst + c.report.written.length ≤ base))
    (this1 : impl) (mem1 : List Nat) (out1 : Nat)
    (h : encode_all this mem dst_out calls = some (this1, mem1, out1)) :
    field_load mem1 (base + 12) rtp_payload_flags
      = field_load mem (base + 12) rtp_payload_flags ∧
    ∀ k, k < 12 → mem_byte mem1 (base + k) = mem_byte mem (base + k) := by
  induction calls generalizing mem dst_out with
  | nil =>
    simp only [encode_all, Option.some.injEq, Prod.mk.injEq] at h
    obtain ⟨-, rfl, -⟩ := h
    exact ⟨rfl, fun _ _ => rfl⟩
  | cons c cs ih =>
    obtain ⟨hres, hin, hdis⟩ := hcalls c (List.mem_cons_self c cs)
    have hp : this.payload ≠ 0 := by omega
    have hlen := mem_store_length mem c.report.written c.dst hin
    obtain ⟨hl2, hother, hflags⟩ := frame_count_store_only
      (mem_store mem c.dst c.report.written) (base + 12)
      ((field_load (mem_store mem c.dst c.report.written) (base + 12)
        rtp_payload_frame_count : Int) + c.report.frame_num) (by omega)
    simp only [encode_all, encode_success_mem this mem c.report c.src_size c.dst c.dst_size
      dst_out hres hp, hbase] at h
    have hcalls2 : ∀ c2 ∈ cs, 0 ≤ c2.report.res ∧
        c2.dst + c2.report.written.length ≤
          (field_store (mem_store mem c.dst c.report.written) (base + 12)
            rtp_payload_frame_count
            ((field_load (mem_store mem c.dst c.report.written) (base + 12)
              rtp_payload_frame_count : Int) + c.report.frame_num)).length ∧
        (base + 12 < c2.dst ∨ c2.dst + c2.report.written.length ≤ base) := by
      intro c2 hc2
      rw [hl2, hlen]
      exact hcalls c2 (List.mem_cons_of_mem c hc2)
    obtain ⟨ih1, ih2⟩ := ih _ _ (by rw [hl2, hlen]; exact hpin) hcalls2 h
    constructor
    · rw [ih1, hflags]
      simp only [field_load, rtp_payload_flags, Nat.add_zero]
      rw [mem_byte_store_other mem c.report.written c.dst (base + 12) (by omega)
        (by omega)]
    · intro k hk
      rw [ih2 k hk, hother (base + k) (by omega) (by omega),
        mem_byte_store_other mem c.report.written c.dst (base + k) (by omega) (by omega)]

/-- C23: after `codec_start_encode` on a buffer of at least 13 bytes, followed by any
number of `codec_encode` calls in which the engine reports non-negative statuses and
frame numbers `f1 .. fN` and writes inside the memory and outside the 13 preamble
bytes, the calls all return, the frame counter equals `(f1 + ... + fN) mod 16`, and
the four flag bits of the preamble byte and the 12 header bytes hold what
`codec_start_encode` wrote. In each single successful `codec_encode` call the store
made by `codec_encode` itself, after the engine's output, changes no byte but the
preamble byte and in it only the 4-bit frame count, which becomes the old count plus
the frame number modulo 16. -/
theorem frame_counter_mod (this : impl) (mem : List Nat)
    (dst dst_size seqnum timestamp dst_out : Nat) (calls : List encode_call)
    (hlen : dst + 13 ≤ mem.length)
    (hcalls : ∀ c ∈ calls, 0 ≤ c.report.res ∧
      c.dst + c.report.written.length ≤ mem.length ∧
      (dst + 12 < c.dst ∨ c.dst + c.report.written.length ≤ dst)) :
    (∃ this1 mem1 out1,
      encode_all (codec_start_encode this mem dst dst_size seqnum timestamp).2.1
        (codec_start_encode this mem dst dst_size seqnum timestamp).2.2 dst_out calls
        = some (this1, mem1, out1) ∧
      ((frame_counter this1 mem1 : Nat) : Int)
        = (calls.map (fun c => c.report.frame_num)).sum % 16 ∧
      field_load mem1 (dst + 12) rtp_payload_flags
        = field_load (codec_start_encode this mem dst dst_size seqnum timestamp).2.2
            (dst + 12) rtp_payload_flags ∧
      ∀ k, k < 12 → mem_byte mem1 (dst + k)
        = mem_byte (codec_start_encode this mem dst dst_size seqnum timestamp).2.2
            (dst + k)) ∧
    (∀ (s : impl) (m : List Nat) (R : encode_report) (src_size d d_size out : Nat),
      0 ≤ R.res → s.payload ≠ 0 → s.payload < (mem_store m d R.written).length →
      ∃ m1, codec_encode s m R src_size d d_size out
          = some (R.src_used, s, m1, size_of_int R.dst_used) ∧
        m1.length = (mem_store m d R.written).length ∧
        (∀ a, a < (mem_store m d R.written).length → a ≠ s.payload →
          mem_byte m1 a = mem_byte (mem_store m d R.written) a) ∧
        field_load m1 s.payload rtp_payload_flags
          = field_load (mem_store m d R.written) s.payload rtp_payload_flags ∧
        field_load m1 s.payload rtp_payload_frame_count
          = ((((field_load (mem_store m d R.written) s.payload
                rtp_payload_frame_count : Nat) : Int) + R.frame_num) % 16).toNat) := by
  constructor
  · obtain ⟨hthis, hlen2, hfc⟩ :=
      start_encode_state this mem dst dst_size seqnum timestamp hlen
    have hpay : (codec_start_encode this mem dst dst_size seqnum timestamp).2.1.payload
        = dst + 12 := by rw [hthis]
    obtain ⟨mem1, out1, h1, -, hfc1⟩ := encode_all_frame_counter
      (codec_start_encode this mem dst dst_size seqnum timestamp).2.1 calls
      (codec_start_encode this mem dst dst_size seqnum timestamp).2.2 dst_out
      (by rw [hpay]; omega) (by rw [hpay, hlen2]; omega)
      (by
        intro c hc
        obtain ⟨h1, h3, h4⟩ := hcalls c hc
        rw [hpay, hlen2]
        exact ⟨h1, h3, by omega⟩)
    obtain ⟨hflags, hbytes⟩ := encode_all_keeps_preamble
      (codec_start_encode this mem dst dst_size seqnum timestamp).2.1 dst calls
      (codec_start_encode this mem dst dst_size seqnum timestamp).2.2 dst_out hpay
      (by rw [hlen2]; exact hlen)
      (by
        intro c hc
        rw [hlen2]
        exact hcalls c hc)
      _ mem1 out1 h1
    refine ⟨_, mem1, out1, h1, ?_, hflags, hbytes⟩
    rw [hfc1, hfc]
    simp
  · intro s m R src_size d d_size out hres hp hpin
    obtain ⟨hl, hother, hflags⟩ := frame_count_store_only (mem_store m d R.written)
      s.payload ((field_load (mem_store m d R.written) s.payload
        rtp_payload_frame_count : Int) + R.frame_num) hpin
    refine ⟨_, encode_success_mem s m R src_size d d_size out hres hp, hl, hother,
      hflags, ?_⟩
    have hl2 : s.payload < (mem_store m d R.written).length := hpin
    simp only [field_load, field_store, rtp_payload_frame_count, Nat.add_zero]
    rw [mem_byte_store_self _ _ _ hl2, frame_count_set_get]

/-- C23 at a concrete input: two successful calls reporting 9 frames each leave the
counter at `18 mod 16`, with the flag bits and the 12 header bytes as
`codec_start_encode` wrote them. -/
theorem frame_counter_mod_witness :
    ∃ this1 mem1 out1,
      encode_all
        (codec_start_encode sq_session (List.replicate 40 255) 4 36 0x1234 0xdeadbeef).2.1
        (codec_start_encode sq_session (List.replicate 40 255) 4 36 0x1234 0xdeadbeef).2.2 0
        calls_9_9 = some (this1, mem1, out1) ∧
      ((frame_counter this1 mem1 : Nat) : Int)
        = (calls_9_9.map (fun c => c.report.frame_num)).sum % 16 ∧
      field_load mem1 (4 + 12) rtp_payload_flags
        = field_load
            (codec_start_encode sq_session (List.replicate 40 255) 4 36 0x1234
              0xdeadbeef).2.2 (4 + 12) rtp_payload_flags ∧
      ∀ k, k < 12 → mem_byte mem1 (4 + k)
        = mem_byte
            (codec_start_encode sq_session (List.replicate 40 255) 4 36 0x1234
              0xdeadbeef).2.2 (4 + k) :=
  (frame_counter_mod sq_session (List.replicate 40 255) 4 36 0x1234 0xdeadbeef 0 calls_9_9
    (by decide) (by decide)).1

end A2dpLdac
